import Mathlib

/-!
Verification of the pharma-inventory demo ETL pipeline (`src/app.py`).

The script generates two synthetic branch feeds (Yangon rows with ISO
`YYYY-MM-DD` expiry strings, Mandalay rows with day-first `DD/MM/YYYY`
expiry strings), then `run_etl_pipeline` renames the columns to a
canonical schema, parses the date strings, concatenates the two tables,
and derives `days_until_expiry` and `status` columns.

Modelling choices:
* A Python `datetime` / `pandas.Timestamp` is modelled by its proleptic
  Gregorian civil date (`Date`, a year/month/day triple) together with a
  second count; an absolute timestamp is an integer number of seconds
  since the epoch `1970-01-01 00:00:00`, so the civil date of a
  timestamp `t` is the date whose day number (`daysFromCivil`) is
  `t / 86400`, and `t % 86400` is the time of day.
* `datetime.now() + timedelta(days=k)` on a naive datetime shifts the
  civil date by `k` days and keeps the time of day; `strftime` with a
  pure date format then discards the time of day.  The generator is
  therefore modelled on civil dates directly (`addDaysCivil`).
* `pandas.to_datetime` applied to a date-only string yields midnight of
  the parsed civil date.  The two calls are modelled with pandas'
  fallback behaviour over the recognized date-string shapes
  (`parseDateGuess` for the format-less line-60 call,
  `parseDateGuessDayFirst` for the `dayfirst=True` line-69 call): an
  ISO string is unambiguous, a slash triple is read with the call's
  preferred field order, and dateutil swaps day and month when the
  preferred reading is not a real date.  `dateutil` spellings outside
  these shapes (month names, two-digit years, ...), and the
  `datetime64[ns]` representable range, are not modelled — no claim
  depends on them.
* A DataFrame is a list of rows; a row is an association list from
  column names to cell values, exactly the dictionaries built by
  `generate_fake_data`.
* A raised exception is modelled by `Except.error`; `st.session_state`
  by an explicit `SessionState` value.
-/

/-! ## Civil (proleptic Gregorian) calendar, as used by Python `datetime` -/

/-- A civil calendar date (proleptic Gregorian), the date part of a
Python `datetime`. -/
structure Date where
  year : Int
  month : Int
  day : Int
deriving DecidableEq

/-- Gregorian leap-year rule (as in Python's `calendar.isleap`). -/
def isLeap (y : Int) : Bool :=
  (y % 4 == 0 && y % 100 != 0) || y % 400 == 0

/-- Number of days of month `m` of year `y` (for `1 ≤ m ≤ 12`). -/
def daysInMonth (y m : Int) : Int :=
  if m = 2 then (if isLeap y then 29 else 28)
  else if m = 4 ∨ m = 6 ∨ m = 9 ∨ m = 11 then 30
  else 31

/-- The month/day fields form a real calendar date of their year.
(Python's `datetime` additionally bounds the year to `[1, 9999]`; the
year bound is carried as a separate hypothesis where it matters.) -/
def validYmd (c : Date) : Prop :=
  1 ≤ c.month ∧ c.month ≤ 12 ∧ 1 ≤ c.day ∧ c.day ≤ daysInMonth c.year c.month

instance (c : Date) : Decidable (validYmd c) := by
  unfold validYmd
  infer_instance

/-- Day number of a civil date counted from 1970-01-01 (day 0), the
standard days-from-civil computation for the proleptic Gregorian
calendar; this is the linearisation used by `datetime` subtraction. -/
def daysFromCivil (c : Date) : Int :=
  let y := c.year - (if c.month ≤ 2 then 1 else 0)
  let era := y / 400
  let yoe := y - era * 400
  let doy := (153 * (c.month + (if 2 < c.month then -3 else 9)) + 2) / 5 + c.day - 1
  let doe := yoe * 365 + yoe / 4 - yoe / 100 + doy
  era * 146097 + doe - 719468

/-- Successor day in the civil calendar. -/
def nextDay (c : Date) : Date :=
  if c.day < daysInMonth c.year c.month then ⟨c.year, c.month, c.day + 1⟩
  else if c.month < 12 then ⟨c.year, c.month + 1, 1⟩
  else ⟨c.year + 1, 1, 1⟩

/-- Predecessor day in the civil calendar. -/
def prevDay (c : Date) : Date :=
  if 1 < c.day then ⟨c.year, c.month, c.day - 1⟩
  else if 1 < c.month then ⟨c.year, c.month - 1, daysInMonth c.year (c.month - 1)⟩
  else ⟨c.year - 1, 12, 31⟩

/-- Iterated successor. -/
def nextDays : Nat → Date → Date
  | 0, c => c
  | Nat.succ n, c => nextDays n (nextDay c)

/-- Iterated predecessor. -/
def prevDays : Nat → Date → Date
  | 0, c => c
  | Nat.succ n, c => prevDays n (prevDay c)

/-- Civil-date shift by `k` days: the date part of
`datetime + timedelta(days=k)` on a naive datetime. -/
def addDaysCivil (k : Int) (c : Date) : Date :=
  if 0 ≤ k then nextDays k.toNat c else prevDays (-k).toNat c

/-! ## Decimal digit strings: `strftime` formatting and string parsing -/

/-- The ASCII digit character of a digit value below ten. -/
def digitChar (n : Nat) : Char :=
  if n = 0 then '0' else if n = 1 then '1' else if n = 2 then '2' else if n = 3 then '3'
  else if n = 4 then '4' else if n = 5 then '5' else if n = 6 then '6' else if n = 7 then '7'
  else if n = 8 then '8' else '9'

/-- The digit value of an ASCII digit character, `none` otherwise. -/
def digitVal (ch : Char) : Option Nat :=
  if ch = '0' then some 0 else if ch = '1' then some 1 else if ch = '2' then some 2
  else if ch = '3' then some 3 else if ch = '4' then some 4 else if ch = '5' then some 5
  else if ch = '6' then some 6 else if ch = '7' then some 7 else if ch = '8' then some 8
  else if ch = '9' then some 9 else none

/-- Decimal digit writer with explicit fuel (one digit is emitted per
unit of fuel, so any fuel above the digit count is enough); structural
recursion keeps it kernel-computable. -/
def natToDigitsF : Nat → Nat → List Char
  | 0, _ => []
  | Nat.succ fuel, n =>
    if n < 10 then [digitChar n]
    else natToDigitsF fuel (n / 10) ++ [digitChar (n % 10)]

/-- Decimal digit list of a natural number, most significant first. -/
def natToDigits (n : Nat) : List Char := natToDigitsF (n + 1) n

/-- Left-pad a digit list with zeros to width `w` (as `strftime` does for
`%Y`, `%m`, `%d`). -/
def zeroPad (w : Nat) (l : List Char) : List Char :=
  List.replicate (w - l.length) '0' ++ l

/-- Reads a digit list left to right accumulating its decimal value;
fails on a non-digit. -/
def parseNatAux : Nat → List Char → Option Nat
  | acc, [] => some acc
  | acc, ch :: rest =>
    match digitVal ch with
    | some v => parseNatAux (10 * acc + v) rest
    | none => none

/-- Decimal value of a nonempty all-digit character list. -/
def parseNatDigits (l : List Char) : Option Nat :=
  match l with
  | [] => none
  | _ => parseNatAux 0 l

/-- Splits a character list at every occurrence of `sep` (the field
splitting underlying date-string parsing). -/
def splitOnChar (sep : Char) : List Char → List (List Char)
  | [] => [[]]
  | ch :: rest =>
    if ch = sep then [] :: splitOnChar sep rest
    else
      match splitOnChar sep rest with
      | [] => [[ch]]
      | g :: gs => (ch :: g) :: gs

/-! ## Date string formatting (`strftime`) and parsing (`pd.to_datetime`) -/

/-- The `strftime("%Y-%m-%d")` rendering of a civil date (ISO form, the
Yangon expiry format, `src/app.py` line 26). -/
def formatIsoDate (c : Date) : String :=
  String.mk (zeroPad 4 (natToDigits c.year.toNat) ++
    '-' :: (zeroPad 2 (natToDigits c.month.toNat) ++
      '-' :: zeroPad 2 (natToDigits c.day.toNat)))

/-- The `strftime("%d/%m/%Y")` rendering of a civil date (day-first form,
the Mandalay expiry format, `src/app.py` line 40). -/
def formatDayFirstDate (c : Date) : String :=
  String.mk (zeroPad 2 (natToDigits c.day.toNat) ++
    '/' :: (zeroPad 2 (natToDigits c.month.toNat) ++
      '/' :: zeroPad 4 (natToDigits c.year.toNat)))

/-- The ISO `YYYY-MM-DD` reading of a date string; the month/day fields
must form a real calendar date.  One of the candidate readings
`pd.to_datetime` tries (and a well-formed ISO string is unambiguous, so
this reading wins whenever it applies). -/
def parseDateISO (s : String) : Option Date :=
  match splitOnChar '-' s.data with
  | [ys, ms, ds] =>
    match parseNatDigits ys, parseNatDigits ms, parseNatDigits ds with
    | some y, some m, some d =>
      if 1 ≤ m ∧ m ≤ 12 ∧ 1 ≤ d ∧ (d : Int) ≤ daysInMonth (y : Int) (m : Int)
      then some ⟨(y : Int), (m : Int), (d : Int)⟩ else none
    | _, _, _ => none
  | _ => none

/-- The day-first `DD/MM/YYYY` reading of a slash-separated date string;
the preferred reading under `pd.to_datetime(..., dayfirst=True)`. -/
def parseDateDayFirst (s : String) : Option Date :=
  match splitOnChar '/' s.data with
  | [ds, ms, ys] =>
    match parseNatDigits ds, parseNatDigits ms, parseNatDigits ys with
    | some d, some m, some y =>
      if 1 ≤ m ∧ m ≤ 12 ∧ 1 ≤ d ∧ (d : Int) ≤ daysInMonth (y : Int) (m : Int)
      then some ⟨(y : Int), (m : Int), (d : Int)⟩ else none
    | _, _, _ => none
  | _ => none

/-- The month-first `MM/DD/YYYY` reading of a slash-separated date
string; the preferred reading under `pd.to_datetime` without
`dayfirst`. -/
def parseMonthFirst (s : String) : Option Date :=
  match splitOnChar '/' s.data with
  | [ms, ds, ys] =>
    match parseNatDigits ms, parseNatDigits ds, parseNatDigits ys with
    | some m, some d, some y =>
      if 1 ≤ m ∧ m ≤ 12 ∧ 1 ≤ d ∧ (d : Int) ≤ daysInMonth (y : Int) (m : Int)
      then some ⟨(y : Int), (m : Int), (d : Int)⟩ else none
    | _, _, _ => none
  | _ => none

/-- Model of `pd.to_datetime(column)` with no `format` argument
(`src/app.py` line 60): pandas infers the format, so a string that fails
the ISO form is still accepted when another recognized reading applies —
an unambiguous ISO string parses as ISO, and a slash triple is read
month-first, falling back to day-first when the month-first reading is
not a real date (dateutil's swap, e.g. "25/12/2025" → 2025-12-25).
Spellings outside these shapes (month names, two-digit years, ...) are
outside every claim's domain and are modelled as failures. -/
def parseDateGuess (s : String) : Option Date :=
  match parseDateISO s with
  | some c => some c
  | none =>
    match parseMonthFirst s with
    | some c => some c
    | none => parseDateDayFirst s

/-- Model of `pd.to_datetime(column, dayfirst=True)` (`src/app.py` line
69): `dayfirst` is only a preference, not an assertion — an ISO string
still parses as ISO, a slash triple is read day-first, and when the
day-first reading is not a real date pandas swaps to month-first (e.g.
"12/25/2025" → 2025-12-25).  Spellings outside these shapes are outside
every claim's domain and are modelled as failures. -/
def parseDateGuessDayFirst (s : String) : Option Date :=
  match parseDateISO s with
  | some c => some c
  | none =>
    match parseDateDayFirst s with
    | some c => some c
    | none => parseMonthFirst s

/-! ## Rows and DataFrames -/

/-- A cell value: a Python string, int, or pandas Timestamp (seconds
since the epoch). -/
inductive Value where
  | str : String → Value
  | int : Int → Value
  | ts : Int → Value
deriving DecidableEq

/-- A row: an association list from column names to cell values — one of
the dictionaries built by `generate_fake_data`. -/
abbrev Row := List (String × Value)

/-- A DataFrame, modelled as its list of rows. -/
abbrev DataFrame := List Row

instance {e a : Type} [DecidableEq e] [DecidableEq a] : DecidableEq (Except e a) := by
  intro x y
  cases x <;> cases y
  case error.error v w =>
    by_cases h : v = w
    · exact isTrue (by rw [h])
    · exact isFalse (by intro hc; cases hc; exact h rfl)
  case error.ok v w => exact isFalse (by intro hc; cases hc)
  case ok.error v w => exact isFalse (by intro hc; cases hc)
  case ok.ok v w =>
    by_cases h : v = w
    · exact isTrue (by rw [h])
    · exact isFalse (by intro hc; cases hc; exact h rfl)

/-- First value stored under column `k`, if any. -/
def rowGet (k : String) : Row → Option Value
  | [] => none
  | p :: r => if p.1 = k then some p.2 else rowGet k r

/-- Whether the row has a column named `k`. -/
def rowHas (k : String) : Row → Bool
  | [] => false
  | p :: r => p.1 = k || rowHas k r

/-- Replaces the value under every occurrence of column `k`. -/
def replaceCell (k : String) (v : Value) : Row → Row
  | [] => []
  | p :: r => if p.1 = k then (k, v) :: replaceCell k v r else p :: replaceCell k v r

/-- Column assignment `row[k] = v` with pandas semantics: overwrite the
existing column, or append a new column at the end. -/
def setCell (k : String) (v : Value) (r : Row) : Row :=
  if rowHas k r then replaceCell k v r else r ++ [(k, v)]

/-- Column deletion (`DataFrame.drop(columns=[k])`, per row). -/
def dropKey (k : String) : Row → Row
  | [] => []
  | p :: r => if p.1 = k then dropKey k r else p :: dropKey k r

/-- The new name of column `k` under the rename table `m` (`DataFrame.rename`
leaves unmatched labels unchanged). -/
def renameKey (m : List (String × String)) (k : String) : String :=
  match m with
  | [] => k
  | p :: rest => if p.1 = k then p.2 else renameKey rest k

/-- Per-row column renaming. -/
def renameRow (m : List (String × String)) (r : Row) : Row :=
  r.map (fun p => (renameKey m p.1, p.2))

/-- Column names of a row, in order. -/
def rowKeys (r : Row) : List String :=
  r.map Prod.fst

/-! ## Synthetic data generation (`generate_fake_data`, `src/app.py` lines 11-48) -/

/-- The fixed five-product catalog (`src/app.py` lines 13-19), as
(id, name) pairs. -/
def products : List (String × String) :=
  [("P001", "Amoxicillin 500mg"),
   ("P002", "Paracetamol 500mg"),
   ("P003", "Cetirizine 10mg"),
   ("P004", "Vitamin C 1000mg"),
   ("P005", "Omeprazole 20mg")]

/-- The random draws consumed by one iteration of the Yangon loop
(`src/app.py` lines 23-32), plus the civil date of that iteration's
`datetime.now()` call. -/
structure YgnChoice where
  nowDate : Date
  prodIdx : Nat
  days : Int
  batch : Nat
  qty : Int

/-- The random draws consumed by one iteration of the Mandalay loop
(`src/app.py` lines 36-46), plus the civil date of that iteration's
`datetime.now()` call. -/
structure MdlChoice where
  nowDate : Date
  prodIdx : Nat
  days : Int
  batch : Nat
  qty : Int

/-- The ranges `random.choice` / `random.randint` draw from in the
Yangon loop: `days ∈ {-10, 30, 60, 365}` (line 25), a product index
below 5 (line 24), `batch ∈ [1000, 9999]` (line 29), and
`qty ∈ [50, 500]` (line 30). -/
def validYgnChoice (c : YgnChoice) : Prop :=
  c.prodIdx < 5 ∧ (c.days = -10 ∨ c.days = 30 ∨ c.days = 60 ∨ c.days = 365) ∧
    1000 ≤ c.batch ∧ c.batch ≤ 9999 ∧ 50 ≤ c.qty ∧ c.qty ≤ 500

/-- The ranges drawn from in the Mandalay loop: `days ∈ {10, 90, 120}`
(line 38), a product index below 5 (line 37), `batch ∈ [1000, 9999]`
(line 43), and `qty ∈ [20, 200]` (line 44). -/
def validMdlChoice (c : MdlChoice) : Prop :=
  c.prodIdx < 5 ∧ (c.days = 10 ∨ c.days = 90 ∨ c.days = 120) ∧
    1000 ≤ c.batch ∧ c.batch ≤ 9999 ∧ 20 ≤ c.qty ∧ c.qty ≤ 200

instance (c : YgnChoice) : Decidable (validYgnChoice c) := by
  unfold validYgnChoice
  infer_instance

instance (c : MdlChoice) : Decidable (validMdlChoice c) := by
  unfold validMdlChoice
  infer_instance

/-- One Yangon row (`src/app.py` lines 27-32): the dictionary literal,
with `Expiry_Date` the ISO rendering of the civil date of
`datetime.now() + timedelta(days=days)` (line 26). -/
def genYgnRow (c : YgnChoice) : Row :=
  [("Product_ID", Value.str (products.getD c.prodIdx ("", "")).1),
   ("Product_Name", Value.str (products.getD c.prodIdx ("", "")).2),
   ("Batch_No", Value.str ("YGN-" ++ String.mk (natToDigits c.batch))),
   ("Expiry_Date", Value.str (formatIsoDate (addDaysCivil c.days c.nowDate))),
   ("Stock_Qty", Value.int c.qty),
   ("Warehouse_Loc", Value.str "Yangon_Main")]

/-- One Mandalay row (`src/app.py` lines 41-46): the dictionary literal,
with `Exp_Date` the day-first rendering of the civil date of
`datetime.now() + timedelta(days=days)` (line 40). -/
def genMdlRow (c : MdlChoice) : Row :=
  [("PID", Value.str (products.getD c.prodIdx ("", "")).1),
   ("Name", Value.str (products.getD c.prodIdx ("", "")).2),
   ("Batch", Value.str ("MDL-" ++ String.mk (natToDigits c.batch))),
   ("Exp_Date", Value.str (formatDayFirstDate (addDaysCivil c.days c.nowDate))),
   ("Qty", Value.int c.qty),
   ("Location", Value.str "Mandalay_Branch")]

/-- The generator `generate_fake_data` (`src/app.py` lines 11-48): both loops, with
the random draws of the iterations supplied as explicit choice lists. -/
def generate_fake_data (ycs : List YgnChoice) (mcs : List MdlChoice) :
    DataFrame × DataFrame :=
  (ycs.map genYgnRow, mcs.map genMdlRow)

/-! ## The ETL pipeline (`run_etl_pipeline`, `src/app.py` lines 51-85) -/

/-- The Yangon rename table (`src/app.py` lines 55-59). -/
def ygnRenameMap : List (String × String) :=
  [("Product_ID", "product_id"), ("Product_Name", "product_name"),
   ("Batch_No", "batch_no"), ("Expiry_Date", "expiry_date"),
   ("Stock_Qty", "quantity"), ("Warehouse_Loc", "branch_location")]

/-- The Mandalay rename table (`src/app.py` lines 63-67). -/
def mdlRenameMap : List (String × String) :=
  [("PID", "product_id"), ("Name", "product_name"), ("Batch", "batch_no"),
   ("Qty", "quantity"), ("Location", "branch_location")]

/-- The status classifier `get_status` (`src/app.py` lines 79-82). -/
def get_status (d : Int) : String :=
  if d < 0 then "EXPIRED"
  else if d < 90 then "CRITICAL"
  else "HEALTHY"

/-- Line 60, per row of the renamed Yangon frame:
`df_ygn_clean["expiry_date"] = pd.to_datetime(df_ygn_clean["expiry_date"])`.
The format is inferred (`parseDateGuess`); only a string that parses
under no recognized reading raises, which fails the whole run. -/
def ygnParseDateRow (r : Row) : Except String Row :=
  match rowGet "expiry_date" r with
  | some (Value.str s) =>
    match parseDateGuess s with
    | some c => Except.ok (setCell "expiry_date" (Value.ts (86400 * daysFromCivil c)) r)
    | none => Except.error ("unparseable date: " ++ s)
  | _ => Except.error "expiry_date column missing or not a string"

/-- Lines 63-70, per row of the Mandalay frame: the rename, then
`df_mdl_clean["expiry_date"] = pd.to_datetime(df_mdl["Exp_Date"], dayfirst=True)`
(the rename does not touch `Exp_Date`, so reading it from the renamed
copy reads the original line-69 value), then
`drop(columns=["Exp_Date"])`.  `dayfirst=True` is a preference
(`parseDateGuessDayFirst`); only a string that parses under no
recognized reading raises. -/
def mdlCleanRow (r : Row) : Except String Row :=
  let renamed := renameRow mdlRenameMap r
  match rowGet "Exp_Date" renamed with
  | some (Value.str s) =>
    match parseDateGuessDayFirst s with
    | some c =>
      Except.ok (dropKey "Exp_Date"
        (setCell "expiry_date" (Value.ts (86400 * daysFromCivil c)) renamed))
    | none => Except.error ("unparseable date: " ++ s)
  | _ => Except.error "Exp_Date column missing or not a string"

/-- Line 77, per row:
`df_master["days_until_expiry"] = (df_master["expiry_date"] - now).dt.days`;
`.dt.days` floors the signed second difference to whole days. -/
def daysRow (now : Int) (r : Row) : Except String Row :=
  match rowGet "expiry_date" r with
  | some (Value.ts e) =>
    Except.ok (setCell "days_until_expiry" (Value.int ((e - now) / 86400)) r)
  | _ => Except.error "expiry_date column missing or not a datetime"

/-- Line 84, per row:
`df_master["status"] = df_master["days_until_expiry"].apply(get_status)`. -/
def statusRow (r : Row) : Except String Row :=
  match rowGet "days_until_expiry" r with
  | some (Value.int d) => Except.ok (setCell "status" (Value.str (get_status d)) r)
  | _ => Except.error "days_until_expiry column missing or not an int"

/-- Applies a fallible per-row step to every row; the first raised error
aborts the whole run, as an uncaught Python exception does. -/
def mapE {α β : Type} (f : α → Except String β) : List α → Except String (List β)
  | [] => Except.ok []
  | a :: as =>
    match f a with
    | Except.ok b =>
      match mapE f as with
      | Except.ok bs => Except.ok (b :: bs)
      | Except.error e => Except.error e
    | Except.error e => Except.error e

/-- The pipeline `run_etl_pipeline` (`src/app.py` lines 51-85): rename and parse the
Yangon frame (lines 55-60), clean the Mandalay frame (lines 63-70),
concatenate (line 73), and derive `days_until_expiry` and `status` from
the single `now = pd.Timestamp.now()` captured at line 76, supplied here
as the `now` argument (seconds since the epoch). -/
def run_etl_pipeline (now : Int) (df_ygn df_mdl : DataFrame) :
    Except String DataFrame :=
  match mapE ygnParseDateRow (df_ygn.map (renameRow ygnRenameMap)) with
  | Except.error e => Except.error e
  | Except.ok df_ygn_clean =>
    match mapE mdlCleanRow df_mdl with
    | Except.error e => Except.error e
    | Except.ok df_mdl_clean =>
      match mapE (daysRow now) (df_ygn_clean ++ df_mdl_clean) with
      | Except.error e => Except.error e
      | Except.ok withDays =>
        match mapE statusRow withDays with
        | Except.error e => Except.error e
        | Except.ok final => Except.ok final

/-! ## Local-variable environment of `run_etl_pipeline` (for the
no-input-mutation property) and the app's session state -/

/-- The local DataFrame variables of `run_etl_pipeline`; the
intermediate names start out unbound. -/
structure EtlEnv where
  df_ygn : DataFrame
  df_mdl : DataFrame
  df_ygn_clean : Option DataFrame
  df_mdl_clean : Option DataFrame
  df_master : Option DataFrame
deriving DecidableEq

/-- The function `run_etl_pipeline` as a statement-by-statement transformer of its
local environment.  `rename`, `pd.to_datetime` and `pd.concat` return
fresh frames; each assignment rebinds only its target variable, exactly
as in lines 55-85 (no statement assigns `df_ygn` or `df_mdl`, and no
`inplace` pandas operation is used). -/
def run_etl_env (now : Int) (env0 : EtlEnv) : Except String EtlEnv :=
  -- lines 55-59: df_ygn_clean = df_ygn.rename(columns=...)
  let ygnRenamed := env0.df_ygn.map (renameRow ygnRenameMap)
  let env1 : EtlEnv := { env0 with df_ygn_clean := some ygnRenamed }
  -- line 60: df_ygn_clean["expiry_date"] = pd.to_datetime(...)
  match mapE ygnParseDateRow ygnRenamed with
  | Except.error e => Except.error e
  | Except.ok ygnParsed =>
  let env2 : EtlEnv := { env1 with df_ygn_clean := some ygnParsed }
  -- lines 63-70: df_mdl_clean = df_mdl.rename(...); expiry parse; drop
  match mapE mdlCleanRow env2.df_mdl with
  | Except.error e => Except.error e
  | Except.ok mdlClean =>
  let env3 : EtlEnv := { env2 with df_mdl_clean := some mdlClean }
  -- line 73: df_master = pd.concat([df_ygn_clean, df_mdl_clean], ...)
  let master0 := ygnParsed ++ mdlClean
  let env4 : EtlEnv := { env3 with df_master := some master0 }
  -- lines 76-77: days_until_expiry column
  match mapE (daysRow now) master0 with
  | Except.error e => Except.error e
  | Except.ok withDays =>
  let env5 : EtlEnv := { env4 with df_master := some withDays }
  -- line 84: status column
  match mapE statusRow withDays with
  | Except.error e => Except.error e
  | Except.ok final =>
  Except.ok { env5 with df_master := some final }

/-- The per-session state the app keeps in `st.session_state`. -/
structure SessionState where
  data_generated : Bool
  df_master : Option DataFrame
deriving DecidableEq

/-- The regenerate-button handler (`src/app.py` lines 95-99): line 96
sets the `data_generated` flag, then lines 97-98 generate fresh frames
(passed here as `df_ygn`/`df_mdl`, the result of the line-97 call) and
assign the pipeline result to `st.session_state['df_master']`.  If the
pipeline raises, the assignment never executes and the exception
propagates to Streamlit, so the previous `df_master` value remains. -/
def regenerate_click (now : Int) (st : SessionState) (df_ygn df_mdl : DataFrame) :
    SessionState :=
  let st1 : SessionState := { st with data_generated := true }
  match run_etl_pipeline now df_ygn df_mdl with
  | Except.ok m => { st1 with df_master := some m }
  | Except.error _ => st1

/-- A fixed sample generation date for concrete runs. -/
def sampleDate : Date := ⟨2025, 6, 15⟩

/-- A sample run timestamp: 01:00:00 on the sample date (not midnight). -/
def sampleNow : Int := 86400 * daysFromCivil sampleDate + 3600

/-- A sample Yangon draw with the -10-day expiry offset. -/
def sampleYgnChoice : YgnChoice := ⟨sampleDate, 0, -10, 1234, 100⟩

/-- A sample Mandalay draw with the 90-day expiry offset. -/
def sampleMdlChoice : MdlChoice := ⟨sampleDate, 1, 90, 5678, 50⟩

/-- The output of a concrete one-row-per-branch pipeline run. -/
def sampleOut : DataFrame :=
  (run_etl_pipeline sampleNow [genYgnRow sampleYgnChoice]
    [genMdlRow sampleMdlChoice]).toOption.getD []

/-- A Yangon-shaped row whose expiry string "25/13/2025" is not a date
under any recognized reading (no month 13, no day 25 of a 13th month),
so the parse raises. -/
def badYgnRow : Row :=
  [("Product_ID", Value.str "P001"), ("Product_Name", Value.str "X"),
   ("Batch_No", Value.str "YGN-1"), ("Expiry_Date", Value.str "25/13/2025"),
   ("Stock_Qty", Value.int 10), ("Warehouse_Loc", Value.str "Yangon_Main")]

/-- A Yangon-shaped row whose expiry string "25/12/2025" fails the
asserted ISO format but is a valid date in the day-first reading, which
pandas' format inference at line 60 silently accepts. -/
def wrongFormatYgnRow : Row :=
  [("Product_ID", Value.str "P001"), ("Product_Name", Value.str "X"),
   ("Batch_No", Value.str "YGN-1"), ("Expiry_Date", Value.str "25/12/2025"),
   ("Stock_Qty", Value.int 10), ("Warehouse_Loc", Value.str "Yangon_Main")]

/-- The (successful) output of the concrete run over the out-of-format
Yangon row. -/
def wrongFormatOut : DataFrame :=
  (run_etl_pipeline sampleNow [wrongFormatYgnRow] []).toOption.getD []

/-- The cleaned Variant-A block of the concrete sample run. -/
def sampleYgnClean : DataFrame :=
  (mapE ygnParseDateRow
    (([genYgnRow sampleYgnChoice] : DataFrame).map (renameRow ygnRenameMap))).toOption.getD []

/-- The cleaned Variant-B block of the concrete sample run. -/
def sampleMdlClean : DataFrame :=
  (mapE mdlCleanRow ([genMdlRow sampleMdlChoice] : DataFrame)).toOption.getD []

/-- The local environment of the concrete sample run before execution. -/
def sampleEnv : EtlEnv :=
  ⟨[genYgnRow sampleYgnChoice], [genMdlRow sampleMdlChoice], none, none, none⟩

/-- The local environment of the concrete sample run after execution. -/
def sampleEnvAfter : EtlEnv :=
  (run_etl_env sampleNow sampleEnv).toOption.getD ⟨[], [], none, none, none⟩

/-- The Yangon draw used when a choice-list lookup falls outside the
list (never reached at the indices used). -/
def defaultYgnChoice : YgnChoice := ⟨⟨1, 1, 1⟩, 0, 0, 0, 0⟩

/-- The Mandalay draw used when a choice-list lookup falls outside the
list (never reached at the indices used). -/
def defaultMdlChoice : MdlChoice := ⟨⟨1, 1, 1⟩, 0, 0, 0, 0⟩

/-! ## The claims -/

set_option maxRecDepth 100000

theorem isLeap_iff (y : Int) :
    isLeap y = true ↔ ((y % 4 = 0 ∧ ¬ y % 100 = 0) ∨ y % 400 = 0) := by
  unfold isLeap
  simp [Bool.or_eq_true, Bool.and_eq_true, beq_iff_eq, bne_iff_ne]

theorem daysInMonth_ge (y m : Int) : 28 ≤ daysInMonth y m := by
  unfold daysInMonth
  split_ifs <;> omega

theorem daysInMonth_le (y m : Int) : daysInMonth y m ≤ 31 := by
  unfold daysInMonth
  split_ifs <;> omega

theorem daysFromCivil_nextDay (c : Date) (h : validYmd c) :
    daysFromCivil (nextDay c) = daysFromCivil c + 1 := by
  obtain ⟨y, m, d⟩ := c
  obtain ⟨h1, h2, h3, h4⟩ := h
  dsimp only at h1 h2 h3 h4
  by_cases hd : d < daysInMonth y m
  · have hn : nextDay ⟨y, m, d⟩ = ⟨y, m, d + 1⟩ := by
      simp only [nextDay, if_pos hd]
    rw [hn]
    simp only [daysFromCivil]
    by_cases hm : m ≤ 2
    · simp only [if_pos hm, if_neg (by omega : ¬ 2 < m)]
      omega
    · simp only [if_neg hm, if_pos (by omega : 2 < m)]
      omega
  · have hdim : d = daysInMonth y m := by omega
    by_cases hlast : m < 12
    · have hn : nextDay ⟨y, m, d⟩ = ⟨y, m + 1, 1⟩ := by
        simp only [nextDay, if_neg hd, if_pos hlast]
      rw [hn]
      have h2' : m ≤ 11 := by omega
      interval_cases m <;> simp only [daysInMonth] at hdim <;> norm_num at hdim <;>
        simp only [daysFromCivil] <;> norm_num
      all_goals try omega
      -- the remaining goal is February, whose day count depends on the leap rule
      all_goals by_cases hl : isLeap y = true
      · rw [if_pos hl] at hdim
        rw [isLeap_iff] at hl
        omega
      · rw [if_neg hl] at hdim
        rw [isLeap_iff] at hl
        omega
    · have hm12 : m = 12 := by omega
      subst hm12
      have hn : nextDay ⟨y, 12, d⟩ = ⟨y + 1, 1, 1⟩ := by
        simp only [nextDay, if_neg hd]
        norm_num
      rw [hn]
      simp only [daysInMonth] at hdim
      norm_num at hdim
      simp only [daysFromCivil]
      norm_num
      omega

theorem daysFromCivil_prevDay (c : Date) (h : validYmd c) :
    daysFromCivil (prevDay c) = daysFromCivil c - 1 := by
  obtain ⟨y, m, d⟩ := c
  obtain ⟨h1, h2, h3, h4⟩ := h
  dsimp only at h1 h2 h3 h4
  by_cases hd : 1 < d
  · have hn : prevDay ⟨y, m, d⟩ = ⟨y, m, d - 1⟩ := by
      simp only [prevDay, if_pos hd]
    rw [hn]
    simp only [daysFromCivil]
    by_cases hm : m ≤ 2
    · simp only [if_pos hm, if_neg (by omega : ¬ 2 < m)]
      omega
    · simp only [if_neg hm, if_pos (by omega : 2 < m)]
      omega
  · have hd1 : d = 1 := by omega
    subst hd1
    by_cases hfirst : 1 < m
    · have hn : prevDay ⟨y, m, 1⟩ = ⟨y, m - 1, daysInMonth y (m - 1)⟩ := by
        simp only [prevDay, if_neg hd, if_pos hfirst]
      rw [hn]
      have h2' : 2 ≤ m := by omega
      interval_cases m <;> simp only [daysFromCivil, daysInMonth] <;> norm_num
      all_goals try omega
      -- the remaining goal moves from March back into February
      all_goals by_cases hl : isLeap y = true
      · rw [if_pos hl]
        rw [isLeap_iff] at hl
        omega
      · rw [if_neg hl]
        rw [isLeap_iff] at hl
        omega
    · have hm1 : m = 1 := by omega
      subst hm1
      have hn : prevDay ⟨y, 1, 1⟩ = ⟨y - 1, 12, 31⟩ := by
        simp only [prevDay]
        norm_num
      rw [hn]
      simp only [daysFromCivil]
      norm_num
      omega

theorem validYmd_nextDay (c : Date) (h : validYmd c) : validYmd (nextDay c) := by
  obtain ⟨y, m, d⟩ := c
  obtain ⟨h1, h2, h3, h4⟩ := h
  dsimp only at h1 h2 h3 h4
  unfold nextDay validYmd
  by_cases hd : d < daysInMonth y m
  · rw [if_pos hd]
    dsimp only
    omega
  · rw [if_neg hd]
    by_cases hlast : m < 12
    · rw [if_pos hlast]
      refine ⟨by dsimp only; omega, by dsimp only; omega, by dsimp only; omega, ?_⟩
      dsimp only
      have := daysInMonth_ge y (m + 1)
      omega
    · rw [if_neg hlast]
      refine ⟨by norm_num, by norm_num, by norm_num, ?_⟩
      dsimp only
      have := daysInMonth_ge (y + 1) 1
      omega

theorem validYmd_prevDay (c : Date) (h : validYmd c) : validYmd (prevDay c) := by
  obtain ⟨y, m, d⟩ := c
  obtain ⟨h1, h2, h3, h4⟩ := h
  dsimp only at h1 h2 h3 h4
  unfold prevDay validYmd
  by_cases hd : 1 < d
  · rw [if_pos hd]
    dsimp only
    omega
  · rw [if_neg hd]
    by_cases hfirst : 1 < m
    · rw [if_pos hfirst]
      refine ⟨by dsimp only; omega, by dsimp only; omega, ?_, by dsimp only; omega⟩
      dsimp only
      have := daysInMonth_ge y (m - 1)
      omega
    · rw [if_neg hfirst]
      refine ⟨by norm_num, by norm_num, by norm_num, ?_⟩
      dsimp only
      have h31 : daysInMonth (y - 1) 12 = 31 := by
        unfold daysInMonth
        norm_num
      omega

theorem nextDay_year_ge (c : Date) : c.year ≤ (nextDay c).year := by
  obtain ⟨y, m, d⟩ := c
  unfold nextDay
  split_ifs <;> dsimp only <;> omega

theorem prevDay_year_ge (c : Date) : c.year - 1 ≤ (prevDay c).year := by
  obtain ⟨y, m, d⟩ := c
  unfold prevDay
  split_ifs <;> dsimp only <;> omega

theorem nextDays_spec (n : Nat) :
    ∀ c : Date, validYmd c →
      validYmd (nextDays n c) ∧
      daysFromCivil (nextDays n c) = daysFromCivil c + n ∧
      c.year ≤ (nextDays n c).year := by
  induction n with
  | zero =>
    intro c h
    exact ⟨h, by simp [nextDays], by simp [nextDays]⟩
  | succ n ih =>
    intro c h
    have hv := validYmd_nextDay c h
    obtain ⟨a, b, yb⟩ := ih (nextDay c) hv
    refine ⟨a, ?_, ?_⟩
    · rw [show nextDays (Nat.succ n) c = nextDays n (nextDay c) from rfl, b,
        daysFromCivil_nextDay c h]
      push_cast
      ring
    · have := nextDay_year_ge c
      calc c.year ≤ (nextDay c).year := this
        _ ≤ (nextDays n (nextDay c)).year := yb

theorem prevDays_spec (n : Nat) :
    ∀ c : Date, validYmd c →
      validYmd (prevDays n c) ∧
      daysFromCivil (prevDays n c) = daysFromCivil c - n ∧
      c.year - n ≤ (prevDays n c).year := by
  induction n with
  | zero =>
    intro c h
    exact ⟨h, by simp [prevDays], by simp [prevDays]⟩
  | succ n ih =>
    intro c h
    have hv := validYmd_prevDay c h
    obtain ⟨a, b, yb⟩ := ih (prevDay c) hv
    refine ⟨a, ?_, ?_⟩
    · rw [show prevDays (Nat.succ n) c = prevDays n (prevDay c) from rfl, b,
        daysFromCivil_prevDay c h]
      push_cast
      ring
    · have hc : prevDays (Nat.succ n) c = prevDays n (prevDay c) := rfl
      rw [hc]
      have hy := prevDay_year_ge c
      push_cast
      omega

theorem addDaysCivil_spec (k : Int) (c : Date) (h : validYmd c) :
    validYmd (addDaysCivil k c) ∧
    daysFromCivil (addDaysCivil k c) = daysFromCivil c + k ∧
    c.year - (if k < 0 then -k else 0) ≤ (addDaysCivil k c).year := by
  unfold addDaysCivil
  by_cases h0 : 0 ≤ k
  · rw [if_pos h0]
    obtain ⟨a, b, yb⟩ := nextDays_spec k.toNat c h
    refine ⟨a, ?_, ?_⟩
    · rw [b, Int.toNat_of_nonneg h0]
    · rw [if_neg (by omega : ¬ k < 0)]
      omega
  · rw [if_neg h0]
    obtain ⟨a, b, yb⟩ := prevDays_spec (-k).toNat c h
    refine ⟨a, ?_, ?_⟩
    · rw [b]
      have : ((-k).toNat : Int) = -k := Int.toNat_of_nonneg (by omega)
      omega
    · rw [if_pos (by omega : k < 0)]
      have : ((-k).toNat : Int) = -k := Int.toNat_of_nonneg (by omega)
      omega

theorem natToDigitsF_fuel (f1 : Nat) :
    ∀ f2 n, n < f1 → n < f2 → natToDigitsF f1 n = natToDigitsF f2 n := by
  induction f1 with
  | zero =>
    intro f2 n h1
    cases h1
  | succ f1 ih =>
    intro f2 n h1 h2
    cases f2 with
    | zero => cases h2
    | succ f2 =>
      show (if n < 10 then [digitChar n]
        else natToDigitsF f1 (n / 10) ++ [digitChar (n % 10)]) =
        (if n < 10 then [digitChar n]
        else natToDigitsF f2 (n / 10) ++ [digitChar (n % 10)])
      by_cases h : n < 10
      · rw [if_pos h, if_pos h]
      · rw [if_neg h, if_neg h,
          ih f2 (n / 10) (by omega) (by have := Nat.div_lt_self (by omega : 0 < n) (by omega : 1 < 10); omega)]

theorem natToDigits_eq (n : Nat) :
    natToDigits n =
      if n < 10 then [digitChar n]
      else natToDigits (n / 10) ++ [digitChar (n % 10)] := by
  show (if n < 10 then [digitChar n]
    else natToDigitsF n (n / 10) ++ [digitChar (n % 10)]) = _
  by_cases h : n < 10
  · rw [if_pos h, if_pos h]
  · rw [if_neg h, if_neg h]
    unfold natToDigits
    rw [natToDigitsF_fuel n (n / 10 + 1) (n / 10)
      (by have := Nat.div_lt_self (by omega : 0 < n) (by omega : 1 < 10); omega)
      (by omega)]

theorem digitVal_digitChar (n : Nat) (h : n < 10) : digitVal (digitChar n) = some n := by
  interval_cases n <;> rfl

theorem digitChar_not_dash (n : Nat) : digitChar n ≠ '-' ∧ digitChar n ≠ '/' := by
  unfold digitChar
  split_ifs <;> exact ⟨by decide, by decide⟩

theorem natToDigits_ne_nil (n : Nat) : natToDigits n ≠ [] := by
  rw [natToDigits_eq]
  split_ifs <;> simp

theorem mem_natToDigits_not_sep (n : Nat) :
    ∀ ch ∈ natToDigits n, ch ≠ '-' ∧ ch ≠ '/' := by
  induction n using Nat.strong_induction_on with
  | _ n ih =>
    intro ch hch
    rw [natToDigits_eq] at hch
    by_cases h : n < 10
    · rw [if_pos h] at hch
      simp only [List.mem_singleton] at hch
      subst hch
      exact digitChar_not_dash n
    · rw [if_neg h] at hch
      rw [List.mem_append] at hch
      rcases hch with hch | hch
      · exact ih (n / 10) (Nat.div_lt_self (by omega) (by omega)) ch hch
      · simp only [List.mem_singleton] at hch
        subst hch
        exact digitChar_not_dash (n % 10)

theorem mem_zeroPad_not_sep (w : Nat) (l : List Char)
    (h : ∀ ch ∈ l, ch ≠ '-' ∧ ch ≠ '/') :
    ∀ ch ∈ zeroPad w l, ch ≠ '-' ∧ ch ≠ '/' := by
  intro ch hch
  unfold zeroPad at hch
  rw [List.mem_append] at hch
  rcases hch with hch | hch
  · rw [List.mem_replicate] at hch
    rw [hch.2]
    exact ⟨by decide, by decide⟩
  · exact h ch hch

theorem parseNatAux_nil (acc : Nat) : parseNatAux acc [] = some acc := rfl

theorem parseNatAux_cons (acc : Nat) (ch : Char) (rest : List Char) :
    parseNatAux acc (ch :: rest) =
      match digitVal ch with
      | some v => parseNatAux (10 * acc + v) rest
      | none => none := rfl

theorem parseNatAux_append (l1 l2 : List Char) :
    ∀ acc, parseNatAux acc (l1 ++ l2) =
      match parseNatAux acc l1 with
      | some a => parseNatAux a l2
      | none => none := by
  induction l1 with
  | nil => intro acc; rfl
  | cons ch rest ih =>
    intro acc
    rw [List.cons_append, parseNatAux_cons, parseNatAux_cons]
    cases hv : digitVal ch with
    | some v =>
      simp only
      exact ih (10 * acc + v)
    | none => simp only

theorem parseNatAux_natToDigits (n : Nat) :
    ∀ acc, parseNatAux acc (natToDigits n) =
      some (acc * 10 ^ (natToDigits n).length + n) := by
  induction n using Nat.strong_induction_on with
  | _ n ih =>
    intro acc
    by_cases h : n < 10
    · rw [natToDigits_eq, if_pos h]
      rw [parseNatAux_cons, digitVal_digitChar n h]
      simp only [parseNatAux_nil, List.length_singleton, pow_one, Option.some.injEq]
      ring
    · rw [natToDigits_eq, if_neg h]
      rw [parseNatAux_append]
      rw [ih (n / 10) (Nat.div_lt_self (by omega) (by omega)) acc]
      simp only
      rw [parseNatAux_cons, digitVal_digitChar (n % 10) (by omega)]
      simp only [parseNatAux_nil, List.length_append, List.length_singleton,
        Option.some.injEq]
      rw [pow_succ]
      have hnm : 10 * (n / 10) + n % 10 = n := by omega
      ring_nf
      omega

theorem parseNatAux_zeros (k : Nat) :
    ∀ l, parseNatAux 0 (List.replicate k '0' ++ l) = parseNatAux 0 l := by
  induction k with
  | zero => intro l; rfl
  | succ k ih =>
    intro l
    rw [List.replicate_succ, List.cons_append, parseNatAux_cons]
    have hz : digitVal '0' = some 0 := rfl
    rw [hz]
    simp only
    rw [show 10 * 0 + 0 = 0 from rfl]
    exact ih l

theorem parseNatDigits_zeroPad (w n : Nat) :
    parseNatDigits (zeroPad w (natToDigits n)) = some n := by
  unfold zeroPad parseNatDigits
  have hne : List.replicate (w - (natToDigits n).length) '0' ++ natToDigits n ≠ [] := by
    intro hc
    rcases List.append_eq_nil.mp hc with ⟨-, h2⟩
    exact natToDigits_ne_nil n h2
  cases hl : List.replicate (w - (natToDigits n).length) '0' ++ natToDigits n with
  | nil => exact absurd hl hne
  | cons a as =>
    rw [← hl]
    rw [parseNatAux_zeros]
    rw [parseNatAux_natToDigits n 0]
    simp

theorem splitOnChar_no_sep (sep : Char) (l : List Char)
    (h : ∀ ch ∈ l, ch ≠ sep) : splitOnChar sep l = [l] := by
  induction l with
  | nil => rfl
  | cons ch rest ih =>
    have hch : ch ≠ sep := h ch (List.mem_cons_self ch rest)
    have hrest := ih (fun c hc => h c (List.mem_cons_of_mem ch hc))
    show splitOnChar sep (ch :: rest) = _
    rw [splitOnChar, if_neg hch, hrest]

theorem splitOnChar_append_sep (sep : Char) (l1 l2 : List Char)
    (h : ∀ ch ∈ l1, ch ≠ sep) :
    splitOnChar sep (l1 ++ sep :: l2) = l1 :: splitOnChar sep l2 := by
  induction l1 with
  | nil =>
    show splitOnChar sep (sep :: l2) = _
    rw [splitOnChar, if_pos rfl]
  | cons ch rest ih =>
    have hch : ch ≠ sep := h ch (List.mem_cons_self ch rest)
    have hrest := ih (fun c hc => h c (List.mem_cons_of_mem ch hc))
    show splitOnChar sep (ch :: (rest ++ sep :: l2)) = _
    rw [splitOnChar, if_neg hch, hrest]

theorem parseDateISO_format (c : Date) (hy : 0 ≤ c.year) (h : validYmd c) :
    parseDateISO (formatIsoDate c) = some c := by
  obtain ⟨h1, h2, h3, h4⟩ := h
  unfold parseDateISO formatIsoDate
  have hds : ∀ ch ∈ zeroPad 2 (natToDigits c.day.toNat), ch ≠ '-' := by
    intro ch hch
    exact (mem_zeroPad_not_sep 2 _ (mem_natToDigits_not_sep _) ch hch).1
  have hms : ∀ ch ∈ zeroPad 2 (natToDigits c.month.toNat), ch ≠ '-' := by
    intro ch hch
    exact (mem_zeroPad_not_sep 2 _ (mem_natToDigits_not_sep _) ch hch).1
  have hys : ∀ ch ∈ zeroPad 4 (natToDigits c.year.toNat), ch ≠ '-' := by
    intro ch hch
    exact (mem_zeroPad_not_sep 4 _ (mem_natToDigits_not_sep _) ch hch).1
  rw [show (String.mk (zeroPad 4 (natToDigits c.year.toNat) ++
      '-' :: (zeroPad 2 (natToDigits c.month.toNat) ++
        '-' :: zeroPad 2 (natToDigits c.day.toNat)))).data =
      zeroPad 4 (natToDigits c.year.toNat) ++
      '-' :: (zeroPad 2 (natToDigits c.month.toNat) ++
        '-' :: zeroPad 2 (natToDigits c.day.toNat)) from rfl]
  rw [splitOnChar_append_sep _ _ _ hys, splitOnChar_append_sep _ _ _ hms,
    splitOnChar_no_sep _ _ hds]
  simp only [parseNatDigits_zeroPad]
  have hmn : 1 ≤ c.month.toNat ∧ c.month.toNat ≤ 12 := by omega
  have hdn : 1 ≤ c.day.toNat := by omega
  have hyc : ((c.year.toNat : Nat) : Int) = c.year := Int.toNat_of_nonneg hy
  have hmc : ((c.month.toNat : Nat) : Int) = c.month := Int.toNat_of_nonneg (by omega)
  have hdc : ((c.day.toNat : Nat) : Int) = c.day := Int.toNat_of_nonneg (by omega)
  rw [if_pos]
  · rw [Option.some.injEq]
    cases c
    simp only [Date.mk.injEq]
    refine ⟨hyc, hmc, hdc⟩
  · rw [hyc, hmc, hdc]
    exact ⟨hmn.1, hmn.2, hdn, h4⟩

theorem parseDateDayFirst_format (c : Date) (hy : 0 ≤ c.year) (h : validYmd c) :
    parseDateDayFirst (formatDayFirstDate c) = some c := by
  obtain ⟨h1, h2, h3, h4⟩ := h
  unfold parseDateDayFirst formatDayFirstDate
  have hds : ∀ ch ∈ zeroPad 2 (natToDigits c.day.toNat), ch ≠ '/' := by
    intro ch hch
    exact (mem_zeroPad_not_sep 2 _ (mem_natToDigits_not_sep _) ch hch).2
  have hms : ∀ ch ∈ zeroPad 2 (natToDigits c.month.toNat), ch ≠ '/' := by
    intro ch hch
    exact (mem_zeroPad_not_sep 2 _ (mem_natToDigits_not_sep _) ch hch).2
  have hys : ∀ ch ∈ zeroPad 4 (natToDigits c.year.toNat), ch ≠ '/' := by
    intro ch hch
    exact (mem_zeroPad_not_sep 4 _ (mem_natToDigits_not_sep _) ch hch).2
  rw [show (String.mk (zeroPad 2 (natToDigits c.day.toNat) ++
      '/' :: (zeroPad 2 (natToDigits c.month.toNat) ++
        '/' :: zeroPad 4 (natToDigits c.year.toNat)))).data =
      zeroPad 2 (natToDigits c.day.toNat) ++
      '/' :: (zeroPad 2 (natToDigits c.month.toNat) ++
        '/' :: zeroPad 4 (natToDigits c.year.toNat)) from rfl]
  rw [splitOnChar_append_sep _ _ _ hds, splitOnChar_append_sep _ _ _ hms,
    splitOnChar_no_sep _ _ hys]
  simp only [parseNatDigits_zeroPad]
  have hmn : 1 ≤ c.month.toNat ∧ c.month.toNat ≤ 12 := by omega
  have hdn : 1 ≤ c.day.toNat := by omega
  have hyc : ((c.year.toNat : Nat) : Int) = c.year := Int.toNat_of_nonneg hy
  have hmc : ((c.month.toNat : Nat) : Int) = c.month := Int.toNat_of_nonneg (by omega)
  have hdc : ((c.day.toNat : Nat) : Int) = c.day := Int.toNat_of_nonneg (by omega)
  rw [if_pos]
  · rw [Option.some.injEq]
    cases c
    simp only [Date.mk.injEq]
    refine ⟨hyc, hmc, hdc⟩
  · rw [hyc, hmc, hdc]
    exact ⟨hmn.1, hmn.2, hdn, h4⟩

theorem rowGet_replaceCell_same (k : String) (v : Value) (r : Row)
    (h : rowHas k r = true) : rowGet k (replaceCell k v r) = some v := by
  induction r with
  | nil => simp [rowHas] at h
  | cons p rest ih =>
    by_cases hp : p.1 = k
    · rw [replaceCell, if_pos hp, rowGet, if_pos rfl]
    · rw [replaceCell, if_neg hp, rowGet, if_neg hp]
      rw [rowHas] at h
      simp only [Bool.or_eq_true, decide_eq_true_eq] at h
      rcases h with h | h
      · exact absurd h hp
      · exact ih h

theorem rowGet_setCell_same (k : String) (v : Value) (r : Row) :
    rowGet k (setCell k v r) = some v := by
  unfold setCell
  by_cases h : rowHas k r = true
  · rw [if_pos h]
    exact rowGet_replaceCell_same k v r h
  · rw [if_neg h]
    induction r with
    | nil => rw [List.nil_append, rowGet, if_pos rfl]
    | cons p rest ih =>
      rw [rowHas] at h
      simp only [Bool.or_eq_true, decide_eq_true_eq] at h
      push_neg at h
      rw [List.cons_append, rowGet, if_neg h.1]
      exact ih h.2

theorem rowGet_replaceCell_other (k k' : String) (v : Value) (r : Row)
    (h : k' ≠ k) : rowGet k' (replaceCell k v r) = rowGet k' r := by
  induction r with
  | nil => rfl
  | cons p rest ih =>
    by_cases hp : p.1 = k
    · rw [replaceCell, if_pos hp, rowGet, if_neg (fun hc => h hc.symm), rowGet,
        if_neg (by rw [hp]; exact fun hc => h hc.symm)]
      exact ih
    · rw [replaceCell, if_neg hp, rowGet, rowGet]
      by_cases hp' : p.1 = k'
      · rw [if_pos hp', if_pos hp']
      · rw [if_neg hp', if_neg hp']
        exact ih

theorem rowGet_setCell_other (k k' : String) (v : Value) (r : Row)
    (h : k' ≠ k) : rowGet k' (setCell k v r) = rowGet k' r := by
  unfold setCell
  by_cases hh : rowHas k r = true
  · rw [if_pos hh]
    exact rowGet_replaceCell_other k k' v r h
  · rw [if_neg hh]
    induction r with
    | nil =>
      show rowGet k' ([] ++ [(k, v)]) = rowGet k' []
      rw [List.nil_append]
      show (if k = k' then some v else rowGet k' []) = rowGet k' []
      rw [if_neg (fun hc => h hc.symm)]
    | cons p rest ih =>
      rw [rowHas] at hh
      simp only [Bool.or_eq_true, decide_eq_true_eq] at hh
      push_neg at hh
      rw [List.cons_append, rowGet, rowGet]
      by_cases hp' : p.1 = k'
      · rw [if_pos hp', if_pos hp']
      · rw [if_neg hp', if_neg hp']
        exact ih hh.2

theorem rowGet_dropKey_other (k k' : String) (r : Row) (h : k' ≠ k) :
    rowGet k' (dropKey k r) = rowGet k' r := by
  induction r with
  | nil => rfl
  | cons p rest ih =>
    by_cases hp : p.1 = k
    · rw [dropKey, if_pos hp, rowGet, if_neg (by rw [hp]; exact fun hc => h hc.symm)]
      exact ih
    · rw [dropKey, if_neg hp, rowGet, rowGet]
      by_cases hp' : p.1 = k'
      · rw [if_pos hp', if_pos hp']
      · rw [if_neg hp', if_neg hp']
        exact ih

/-! ## Helper lemmas about `mapE` -/

theorem mapE_nil {α β : Type} (f : α → Except String β) :
    mapE f [] = Except.ok [] := rfl

theorem mapE_cons {α β : Type} (f : α → Except String β) (a : α) (as : List α) :
    mapE f (a :: as) =
      match f a with
      | Except.ok b =>
        match mapE f as with
        | Except.ok bs => Except.ok (b :: bs)
        | Except.error e => Except.error e
      | Except.error e => Except.error e := rfl

theorem mapE_ok_length {α β : Type} (f : α → Except String β) :
    ∀ (l : List α) (bs : List β), mapE f l = Except.ok bs → bs.length = l.length := by
  intro l
  induction l with
  | nil =>
    intro bs h
    rw [mapE_nil] at h
    cases h
    rfl
  | cons a as ih =>
    intro bs h
    rw [mapE_cons] at h
    cases hfa : f a with
    | ok b =>
      rw [hfa] at h
      simp only at h
      cases hrest : mapE f as with
      | ok bs' =>
        rw [hrest] at h
        simp only at h
        cases h
        simp [ih bs' hrest]
      | error e =>
        rw [hrest] at h
        simp only at h
        cases h
    | error e =>
      rw [hfa] at h
      simp only at h
      cases h

theorem mapE_ok_append {α β : Type} (f : α → Except String β)
    (l1 l2 : List α) (b1 b2 : List β)
    (h1 : mapE f l1 = Except.ok b1) (h2 : mapE f l2 = Except.ok b2) :
    mapE f (l1 ++ l2) = Except.ok (b1 ++ b2) := by
  induction l1 generalizing b1 with
  | nil =>
    rw [mapE_nil] at h1
    cases h1
    simpa using h2
  | cons a as ih =>
    rw [mapE_cons] at h1
    cases hfa : f a with
    | ok b =>
      rw [hfa] at h1
      simp only at h1
      cases hrest : mapE f as with
      | ok bs' =>
        rw [hrest] at h1
        simp only at h1
        cases h1
        rw [List.cons_append, mapE_cons, hfa]
        simp only
        rw [ih bs' hrest]
        simp only [List.cons_append]
      | error e =>
        rw [hrest] at h1
        simp only at h1
        cases h1
    | error e =>
      rw [hfa] at h1
      simp only at h1
      cases h1

theorem mapE_error_of_mem {α β : Type} (f : α → Except String β)
    (l : List α) (a : α) (e : String) (ha : a ∈ l) (hf : f a = Except.error e) :
    ∃ e', mapE f l = Except.error e' := by
  induction l with
  | nil => cases ha
  | cons x xs ih =>
    rw [mapE_cons]
    cases hfx : f x with
    | ok b =>
      simp only
      rcases List.mem_cons.mp ha with h | h
      · subst h
        rw [hfx] at hf
        cases hf
      · obtain ⟨e', he'⟩ := ih h
        rw [he']
        exact ⟨e', rfl⟩
    | error e2 =>
      exact ⟨e2, rfl⟩

theorem mapE_ok_mem {α β : Type} (f : α → Except String β) :
    ∀ (l : List α) (bs : List β), mapE f l = Except.ok bs →
      ∀ b ∈ bs, ∃ a ∈ l, f a = Except.ok b := by
  intro l
  induction l with
  | nil =>
    intro bs h b hb
    rw [mapE_nil] at h
    cases h
    cases hb
  | cons x xs ih =>
    intro bs h b hb
    rw [mapE_cons] at h
    cases hfx : f x with
    | ok b0 =>
      rw [hfx] at h
      simp only at h
      cases hrest : mapE f xs with
      | ok bs' =>
        rw [hrest] at h
        simp only at h
        cases h
        rcases List.mem_cons.mp hb with hb | hb
        · subst hb
          exact ⟨x, List.mem_cons_self x xs, hfx⟩
        · obtain ⟨a, ha, hfa⟩ := ih bs' hrest b hb
          exact ⟨a, List.mem_cons_of_mem x ha, hfa⟩
      | error e =>
        rw [hrest] at h
        simp only at h
        cases h
    | error e =>
      rw [hfx] at h
      simp only at h
      cases h

theorem mapE_ok_get {α β : Type} (f : α → Except String β) :
    ∀ (l : List α) (bs : List β), mapE f l = Except.ok bs →
      ∀ (i : Nat) (hi : i < l.length) (hb : i < bs.length),
        f (l.get ⟨i, hi⟩) = Except.ok (bs.get ⟨i, hb⟩) := by
  intro l
  induction l with
  | nil =>
    intro bs h i hi
    cases hi
  | cons x xs ih =>
    intro bs h i hi hb
    rw [mapE_cons] at h
    cases hfx : f x with
    | ok b0 =>
      rw [hfx] at h
      simp only at h
      cases hrest : mapE f xs with
      | ok bs' =>
        rw [hrest] at h
        simp only at h
        cases h
        cases i with
        | zero => exact hfx
        | succ j =>
          exact ih bs' hrest j (by simpa using hi) (by simpa using hb)
      | error e =>
        rw [hrest] at h
        simp only at h
        cases h
    | error e =>
      rw [hfx] at h
      simp only at h
      cases h

theorem mapE_ok_of_forall {α β : Type} (f : α → Except String β) (g : α → β) :
    ∀ (l : List α), (∀ a ∈ l, f a = Except.ok (g a)) →
      mapE f l = Except.ok (l.map g) := by
  intro l
  induction l with
  | nil => intro _; rfl
  | cons x xs ih =>
    intro h
    rw [mapE_cons, h x (List.mem_cons_self x xs),
      ih (fun a ha => h a (List.mem_cons_of_mem x ha))]
    rfl

/-! ## Helper lemmas about the pipeline stages -/

theorem run_etl_ok_elim (now : Int) (df_ygn df_mdl : DataFrame) (out : DataFrame)
    (h : run_etl_pipeline now df_ygn df_mdl = Except.ok out) :
    ∃ ygnClean mdlClean withDays,
      mapE ygnParseDateRow (df_ygn.map (renameRow ygnRenameMap)) = Except.ok ygnClean ∧
      mapE mdlCleanRow df_mdl = Except.ok mdlClean ∧
      mapE (daysRow now) (ygnClean ++ mdlClean) = Except.ok withDays ∧
      mapE statusRow withDays = Except.ok out := by
  unfold run_etl_pipeline at h
  cases h1 : mapE ygnParseDateRow (df_ygn.map (renameRow ygnRenameMap)) with
  | error e =>
    rw [h1] at h
    simp only at h
    cases h
  | ok ygnClean =>
    rw [h1] at h
    simp only at h
    cases h2 : mapE mdlCleanRow df_mdl with
    | error e =>
      rw [h2] at h
      simp only at h
      cases h
    | ok mdlClean =>
      rw [h2] at h
      simp only at h
      cases h3 : mapE (daysRow now) (ygnClean ++ mdlClean) with
      | error e =>
        rw [h3] at h
        simp only at h
        cases h
      | ok withDays =>
        rw [h3] at h
        simp only at h
        cases h4 : mapE statusRow withDays with
        | error e =>
          rw [h4] at h
          simp only at h
          cases h
        | ok final =>
          rw [h4] at h
          simp only at h
          cases h
          exact ⟨ygnClean, mdlClean, withDays, rfl, rfl, h3, h4⟩

theorem ygnParseDateRow_ok_elim (r r' : Row)
    (h : ygnParseDateRow r = Except.ok r') :
    ∃ s c, rowGet "expiry_date" r = some (Value.str s) ∧ parseDateGuess s = some c ∧
      r' = setCell "expiry_date" (Value.ts (86400 * daysFromCivil c)) r := by
  unfold ygnParseDateRow at h
  cases hg : rowGet "expiry_date" r with
  | none =>
    rw [hg] at h
    simp only at h
    cases h
  | some v =>
    rw [hg] at h
    cases v with
    | str s =>
      simp only at h
      cases hp : parseDateGuess s with
      | none =>
        rw [hp] at h
        simp only at h
        cases h
      | some c =>
        rw [hp] at h
        simp only at h
        cases h
        exact ⟨s, c, rfl, hp, rfl⟩
    | int n =>
      simp only at h
      cases h
    | ts e =>
      simp only at h
      cases h

theorem mdlCleanRow_ok_elim (r r' : Row)
    (h : mdlCleanRow r = Except.ok r') :
    ∃ s c, rowGet "Exp_Date" (renameRow mdlRenameMap r) = some (Value.str s) ∧
      parseDateGuessDayFirst s = some c ∧
      r' = dropKey "Exp_Date" (setCell "expiry_date"
        (Value.ts (86400 * daysFromCivil c)) (renameRow mdlRenameMap r)) := by
  simp only [mdlCleanRow] at h
  cases hg : rowGet "Exp_Date" (renameRow mdlRenameMap r) with
  | none =>
    rw [hg] at h
    simp only at h
    cases h
  | some v =>
    rw [hg] at h
    cases v with
    | str s =>
      simp only at h
      cases hp : parseDateGuessDayFirst s with
      | none =>
        rw [hp] at h
        simp only at h
        cases h
      | some c =>
        rw [hp] at h
        simp only at h
        cases h
        exact ⟨s, c, rfl, hp, rfl⟩
    | int n =>
      simp only at h
      cases h
    | ts e =>
      simp only at h
      cases h

theorem daysRow_ok_elim (now : Int) (r r' : Row)
    (h : daysRow now r = Except.ok r') :
    ∃ e, rowGet "expiry_date" r = some (Value.ts e) ∧
      r' = setCell "days_until_expiry" (Value.int ((e - now) / 86400)) r := by
  unfold daysRow at h
  cases hg : rowGet "expiry_date" r with
  | none =>
    rw [hg] at h
    simp only at h
    cases h
  | some v =>
    rw [hg] at h
    cases v with
    | str s =>
      simp only at h
      cases h
    | int n =>
      simp only at h
      cases h
    | ts e =>
      simp only at h
      cases h
      exact ⟨e, rfl, rfl⟩

theorem statusRow_ok_elim (r r' : Row)
    (h : statusRow r = Except.ok r') :
    ∃ d, rowGet "days_until_expiry" r = some (Value.int d) ∧
      r' = setCell "status" (Value.str (get_status d)) r := by
  unfold statusRow at h
  cases hg : rowGet "days_until_expiry" r with
  | none =>
    rw [hg] at h
    simp only at h
    cases h
  | some v =>
    rw [hg] at h
    cases v with
    | str s =>
      simp only at h
      cases h
    | int n =>
      simp only at h
      cases h
      exact ⟨n, rfl, rfl⟩
    | ts e =>
      simp only at h
      cases h

/-- Derived-column facts of an output row built by the two final stages
from master row `m`: the expiry timestamp is preserved, and the days and
status cells are the line-77/line-84 functions of it and of the single
shared `now`. -/
theorem derived_row_spec (now : Int) (m c r : Row)
    (hdays : daysRow now m = Except.ok c)
    (hstat : statusRow c = Except.ok r) :
    ∃ e, rowGet "expiry_date" m = some (Value.ts e) ∧
      rowGet "expiry_date" r = some (Value.ts e) ∧
      rowGet "days_until_expiry" r = some (Value.int ((e - now) / 86400)) ∧
      rowGet "status" r = some (Value.str (get_status ((e - now) / 86400))) ∧
      rowGet "branch_location" r = rowGet "branch_location" m := by
  obtain ⟨e, hge, hc⟩ := daysRow_ok_elim now m c hdays
  obtain ⟨d, hgd, hr⟩ := statusRow_ok_elim c r hstat
  subst hc
  rw [rowGet_setCell_same] at hgd
  have hd : d = (e - now) / 86400 := by
    have := hgd
    simp only [Option.some.injEq, Value.int.injEq] at this
    omega
  subst hd
  subst hr
  refine ⟨e, hge, ?_, ?_, ?_, ?_⟩
  · rw [rowGet_setCell_other _ _ _ _ (by decide : ("expiry_date" : String) ≠ "status"),
      rowGet_setCell_other _ _ _ _ (by decide : ("expiry_date" : String) ≠ "days_until_expiry")]
    exact hge
  · rw [rowGet_setCell_other _ _ _ _
      (by decide : ("days_until_expiry" : String) ≠ "status")]
    exact rowGet_setCell_same _ _ _
  · exact rowGet_setCell_same _ _ _
  · rw [rowGet_setCell_other _ _ _ _ (by decide : ("branch_location" : String) ≠ "status"),
      rowGet_setCell_other _ _ _ _
      (by decide : ("branch_location" : String) ≠ "days_until_expiry")]

/-! ## Helper lemmas about generated rows -/

/-- Round-trip of a generated expiry date through `strftime` and
`pd.to_datetime`: for a valid generation date with a small year margin
(the generator's most negative offset is -10 days), the formatted civil
date parses back to itself, and its day number is the generation day
number shifted by the offset. -/
theorem parseDateGuess_of_iso (s : String) (c : Date)
    (h : parseDateISO s = some c) : parseDateGuess s = some c := by
  unfold parseDateGuess
  rw [h]

theorem parseDateISO_no_dash (s : String)
    (h : ∀ ch ∈ s.data, ch ≠ '-') : parseDateISO s = none := by
  unfold parseDateISO
  rw [splitOnChar_no_sep '-' s.data h]

theorem formatDayFirstDate_no_dash (c : Date) :
    ∀ ch ∈ (formatDayFirstDate c).data, ch ≠ '-' := by
  intro ch hch
  have hd : (formatDayFirstDate c).data =
      zeroPad 2 (natToDigits c.day.toNat) ++
        '/' :: (zeroPad 2 (natToDigits c.month.toNat) ++
          '/' :: zeroPad 4 (natToDigits c.year.toNat)) := rfl
  rw [hd] at hch
  rw [List.mem_append] at hch
  rcases hch with h1 | h1
  · exact (mem_zeroPad_not_sep 2 _ (mem_natToDigits_not_sep _) ch h1).1
  · rw [List.mem_cons] at h1
    rcases h1 with h1 | h1
    · rw [h1]
      decide
    · rw [List.mem_append] at h1
      rcases h1 with h2 | h2
      · exact (mem_zeroPad_not_sep 2 _ (mem_natToDigits_not_sep _) ch h2).1
      · rw [List.mem_cons] at h2
        rcases h2 with h2 | h2
        · rw [h2]
          decide
        · exact (mem_zeroPad_not_sep 4 _ (mem_natToDigits_not_sep _) ch h2).1

theorem parseDateGuessDayFirst_of_dayFirst (s : String) (c : Date)
    (hno : parseDateISO s = none) (h : parseDateDayFirst s = some c) :
    parseDateGuessDayFirst s = some c := by
  unfold parseDateGuessDayFirst
  rw [hno]
  simp only
  rw [h]

theorem gen_date_roundtrip (k : Int) (cd : Date) (hv : validYmd cd)
    (hy : 11 ≤ cd.year) (hk : -10 ≤ k) :
    validYmd (addDaysCivil k cd) ∧ 0 ≤ (addDaysCivil k cd).year ∧
    parseDateISO (formatIsoDate (addDaysCivil k cd)) = some (addDaysCivil k cd) ∧
    parseDateDayFirst (formatDayFirstDate (addDaysCivil k cd)) =
      some (addDaysCivil k cd) ∧
    daysFromCivil (addDaysCivil k cd) = daysFromCivil cd + k := by
  obtain ⟨va, da, ya⟩ := addDaysCivil_spec k cd hv
  have hy0 : 0 ≤ (addDaysCivil k cd).year := by
    by_cases hneg : k < 0
    · rw [if_pos hneg] at ya
      omega
    · rw [if_neg hneg] at ya
      omega
  exact ⟨va, hy0, parseDateISO_format _ hy0 va, parseDateDayFirst_format _ hy0 va, da⟩

theorem renamed_genYgnRow (c : YgnChoice) :
    renameRow ygnRenameMap (genYgnRow c) =
      [("product_id", Value.str (products.getD c.prodIdx ("", "")).1),
       ("product_name", Value.str (products.getD c.prodIdx ("", "")).2),
       ("batch_no", Value.str ("YGN-" ++ String.mk (natToDigits c.batch))),
       ("expiry_date", Value.str (formatIsoDate (addDaysCivil c.days c.nowDate))),
       ("quantity", Value.int c.qty),
       ("branch_location", Value.str "Yangon_Main")] := rfl

theorem renamed_genMdlRow (c : MdlChoice) :
    renameRow mdlRenameMap (genMdlRow c) =
      [("product_id", Value.str (products.getD c.prodIdx ("", "")).1),
       ("product_name", Value.str (products.getD c.prodIdx ("", "")).2),
       ("batch_no", Value.str ("MDL-" ++ String.mk (natToDigits c.batch))),
       ("Exp_Date", Value.str (formatDayFirstDate (addDaysCivil c.days c.nowDate))),
       ("quantity", Value.int c.qty),
       ("branch_location", Value.str "Mandalay_Branch")] := rfl

/-- Cleaning a generated Yangon row: the rename reaches the canonical
schema and the ISO expiry string parses back to the generated civil
date, whose midnight timestamp lands `c.days` days after the generation
date. -/
theorem ygn_clean_gen (c : YgnChoice) (hv : validYmd c.nowDate)
    (hy : 11 ≤ c.nowDate.year) (hk : -10 ≤ c.days) :
    ygnParseDateRow (renameRow ygnRenameMap (genYgnRow c)) =
      Except.ok
        [("product_id", Value.str (products.getD c.prodIdx ("", "")).1),
         ("product_name", Value.str (products.getD c.prodIdx ("", "")).2),
         ("batch_no", Value.str ("YGN-" ++ String.mk (natToDigits c.batch))),
         ("expiry_date", Value.ts (86400 * (daysFromCivil c.nowDate + c.days))),
         ("quantity", Value.int c.qty),
         ("branch_location", Value.str "Yangon_Main")] := by
  obtain ⟨-, -, hiso, -, hdays⟩ := gen_date_roundtrip c.days c.nowDate hv hy hk
  rw [renamed_genYgnRow]
  unfold ygnParseDateRow
  rw [show rowGet "expiry_date"
      [("product_id", Value.str (products.getD c.prodIdx ("", "")).1),
       ("product_name", Value.str (products.getD c.prodIdx ("", "")).2),
       ("batch_no", Value.str ("YGN-" ++ String.mk (natToDigits c.batch))),
       ("expiry_date", Value.str (formatIsoDate (addDaysCivil c.days c.nowDate))),
       ("quantity", Value.int c.qty),
       ("branch_location", Value.str "Yangon_Main")] =
      some (Value.str (formatIsoDate (addDaysCivil c.days c.nowDate))) from rfl]
  simp only
  rw [parseDateGuess_of_iso _ _ hiso]
  simp only [Except.ok.injEq]
  rw [hdays]
  rfl

/-- Cleaning a generated Mandalay row: the rename reaches the canonical
schema except for `Exp_Date`, the day-first expiry string parses back to
the generated civil date, the parsed timestamp is appended as
`expiry_date`, and `Exp_Date` is dropped. -/
theorem mdl_clean_gen (c : MdlChoice) (hv : validYmd c.nowDate)
    (hy : 11 ≤ c.nowDate.year) (hk : -10 ≤ c.days) :
    mdlCleanRow (genMdlRow c) =
      Except.ok
        [("product_id", Value.str (products.getD c.prodIdx ("", "")).1),
         ("product_name", Value.str (products.getD c.prodIdx ("", "")).2),
         ("batch_no", Value.str ("MDL-" ++ String.mk (natToDigits c.batch))),
         ("quantity", Value.int c.qty),
         ("branch_location", Value.str "Mandalay_Branch"),
         ("expiry_date", Value.ts (86400 * (daysFromCivil c.nowDate + c.days)))] := by
  obtain ⟨-, -, -, hdmy, hdays⟩ := gen_date_roundtrip c.days c.nowDate hv hy hk
  simp only [mdlCleanRow]
  rw [renamed_genMdlRow]
  rw [show rowGet "Exp_Date"
      [("product_id", Value.str (products.getD c.prodIdx ("", "")).1),
       ("product_name", Value.str (products.getD c.prodIdx ("", "")).2),
       ("batch_no", Value.str ("MDL-" ++ String.mk (natToDigits c.batch))),
       ("Exp_Date", Value.str (formatDayFirstDate (addDaysCivil c.days c.nowDate))),
       ("quantity", Value.int c.qty),
       ("branch_location", Value.str "Mandalay_Branch")] =
      some (Value.str (formatDayFirstDate (addDaysCivil c.days c.nowDate))) from rfl]
  simp only
  rw [parseDateGuessDayFirst_of_dayFirst _ _
    (parseDateISO_no_dash _ (formatDayFirstDate_no_dash _)) hdmy]
  simp only [Except.ok.injEq]
  rw [hdays]
  rfl

/-! ## Small list-index helpers and sample data for concrete runs -/

theorem getD_append_left {α : Type} (l1 l2 : List α) (i : Nat) (d : α)
    (h : i < l1.length) : (l1 ++ l2).getD i d = l1.getD i d := by
  induction l1 generalizing i with
  | nil => cases h
  | cons a as ih =>
    cases i with
    | zero => rfl
    | succ j => exact ih j (by simpa using h)

theorem getD_append_add {α : Type} (l1 l2 : List α) (j : Nat) (d : α) :
    (l1 ++ l2).getD (l1.length + j) d = l2.getD j d := by
  induction l1 with
  | nil =>
    rw [List.nil_append]
    rw [show List.length ([] : List α) + j = j by simp]
  | cons a as ih =>
    rw [List.cons_append]
    rw [show (a :: as).length + j = (as.length + j) + 1 by simp [Nat.succ_add]]
    rw [List.getD_cons_succ]
    exact ih

theorem getD_map_lt {α β : Type} (f : α → β) (l : List α) (i : Nat) (d : β) (d' : α)
    (h : i < l.length) : (l.map f).getD i d = f (l.getD i d') := by
  induction l generalizing i with
  | nil => cases h
  | cons a as ih =>
    cases i with
    | zero => rfl
    | succ j => exact ih j (by simpa using h)

theorem mapE_ok_getD {α β : Type} (f : α → Except String β) (da : α) (db : β) :
    ∀ (l : List α) (bs : List β), mapE f l = Except.ok bs →
      ∀ i, i < l.length → f (l.getD i da) = Except.ok (bs.getD i db) := by
  intro l
  induction l with
  | nil =>
    intro bs h i hi
    cases hi
  | cons x xs ih =>
    intro bs h i hi
    rw [mapE_cons] at h
    cases hfx : f x with
    | ok b0 =>
      rw [hfx] at h
      simp only at h
      cases hrest : mapE f xs with
      | ok bs' =>
        rw [hrest] at h
        simp only at h
        cases h
        cases i with
        | zero => exact hfx
        | succ j => exact ih bs' hrest j (by simpa using hi)
      | error e =>
        rw [hrest] at h
        simp only at h
        cases h
    | error e =>
      rw [hfx] at h
      simp only at h
      cases h

theorem get_status_eq_expired (d : Int) : get_status d = "EXPIRED" ↔ d < 0 := by
  unfold get_status
  constructor
  · intro h
    by_contra hc
    rw [if_neg hc] at h
    by_cases h90 : d < 90
    · rw [if_pos h90] at h
      exact absurd h (by decide)
    · rw [if_neg h90] at h
      exact absurd h (by decide)
  · intro h
    rw [if_pos h]

/-- C1: for every canonical record of a successful pipeline run, the
status column is `get_status` of the `days_until_expiry` column, and
`get_status` follows the spec's thresholds exactly: a negative value
yields EXPIRED, a value in `[0, 90)` yields CRITICAL, and a value
`≥ 90` yields HEALTHY; in particular -1 is EXPIRED, 0 is CRITICAL, 89
is CRITICAL, and 90 is HEALTHY. -/
theorem claim_C1_status_thresholds :
    (∀ (now : Int) (df_ygn df_mdl out : DataFrame),
      run_etl_pipeline now df_ygn df_mdl = Except.ok out →
      ∀ r ∈ out, ∀ d : Int, rowGet "days_until_expiry" r = some (Value.int d) →
        rowGet "status" r = some (Value.str (get_status d)) ∧
        (d < 0 → get_status d = "EXPIRED") ∧
        (0 ≤ d → d < 90 → get_status d = "CRITICAL") ∧
        (90 ≤ d → get_status d = "HEALTHY")) ∧
    get_status (-1) = "EXPIRED" ∧ get_status 0 = "CRITICAL" ∧
    get_status 89 = "CRITICAL" ∧ get_status 90 = "HEALTHY" := by
  refine ⟨?_, by decide, by decide, by decide, by decide⟩
  intro now df_ygn df_mdl out h r hr d hd
  obtain ⟨yc, mc, wd, h1, h2, h3, h4⟩ := run_etl_ok_elim now df_ygn df_mdl out h
  obtain ⟨c, hc, hcr⟩ := mapE_ok_mem statusRow wd out h4 r hr
  obtain ⟨m, hm, hmc⟩ := mapE_ok_mem (daysRow now) _ wd h3 c hc
  obtain ⟨e, -, -, hdays, hstat, -⟩ := derived_row_spec now m c r hmc hcr
  have hinj : Value.int ((e - now) / 86400) = Value.int d :=
    Option.some.inj (hdays.symm.trans hd)
  have hdd : (e - now) / 86400 = d := by injection hinj
  refine ⟨by rw [← hdd]; exact hstat, ?_, ?_, ?_⟩
  · intro hlt
    unfold get_status
    rw [if_pos hlt]
  · intro h0 h90
    unfold get_status
    rw [if_neg (by omega), if_pos h90]
  · intro h90
    unfold get_status
    rw [if_neg (by omega), if_neg (by omega)]

/-- Witness for C1 at the concrete sample run: the Yangon sample row has
`days_until_expiry = -11`, and its status cell is `get_status (-11)`. -/
theorem claim_C1_witness :
    rowGet "status" (sampleOut.getD 0 []) =
      some (Value.str (get_status (-11))) ∧ get_status (-11) = "EXPIRED" := by
  refine ⟨?_, by decide⟩
  exact (claim_C1_status_thresholds.1 sampleNow [genYgnRow sampleYgnChoice]
    [genMdlRow sampleMdlChoice] sampleOut (by decide) (sampleOut.getD 0 [])
    (by decide) (-11) (by decide)).1

/-- C2: date normalization is per-source and format-faithful: every
well-formed ISO (Variant A) date string parses back to its civil date,
every well-formed day-first (Variant B) date string parses back to its
civil date, the Variant-B string "25/12/2025" denotes 2025-12-25 and not
2025-01-25, and the Mandalay cleaning step stores exactly the day-first
reading of that string as the expiry timestamp. -/
theorem claim_C2_date_normalization (c : Date) (hy : 0 ≤ c.year) (hv : validYmd c) :
    parseDateISO (formatIsoDate c) = some c ∧
    parseDateDayFirst (formatDayFirstDate c) = some c ∧
    parseDateDayFirst "25/12/2025" = some ⟨2025, 12, 25⟩ ∧
    parseDateDayFirst "25/12/2025" ≠ some ⟨2025, 1, 25⟩ ∧
    (∀ r r' : Row, mdlCleanRow r = Except.ok r' →
      rowGet "Exp_Date" (renameRow mdlRenameMap r) = some (Value.str "25/12/2025") →
      rowGet "expiry_date" r' =
        some (Value.ts (86400 * daysFromCivil ⟨2025, 12, 25⟩))) := by
  refine ⟨parseDateISO_format c hy hv, parseDateDayFirst_format c hy hv,
    by decide, by decide, ?_⟩
  intro r r' h hs
  obtain ⟨s, cd, hg, hp, hr⟩ := mdlCleanRow_ok_elim r r' h
  have hss : s = "25/12/2025" := by
    have := Option.some.inj (hg.symm.trans hs)
    injection this
  subst hss
  have hcd : cd = ⟨2025, 12, 25⟩ := by
    have h25 : parseDateGuessDayFirst "25/12/2025" = some ⟨2025, 12, 25⟩ := by decide
    exact Option.some.inj (hp.symm.trans h25)
  subst hcd
  subst hr
  rw [rowGet_dropKey_other _ _ _
    (by decide : ("expiry_date" : String) ≠ "Exp_Date")]
  exact rowGet_setCell_same _ _ _

/-- Witness for C2 at the concrete date 2025-12-25. -/
theorem claim_C2_witness :
    parseDateISO (formatIsoDate ⟨2025, 12, 25⟩) = some ⟨2025, 12, 25⟩ ∧
    parseDateDayFirst "25/12/2025" = some ⟨2025, 12, 25⟩ := by
  have h := claim_C2_date_normalization ⟨2025, 12, 25⟩ (by decide) (by decide)
  exact ⟨h.1, h.2.2.1⟩

/-- C3: reconciliation is lossless — a successful pipeline run returns
exactly one canonical record per raw record: the output record count is
the Variant-A count plus the Variant-B count. -/
theorem claim_C3_lossless (now : Int) (df_ygn df_mdl out : DataFrame)
    (h : run_etl_pipeline now df_ygn df_mdl = Except.ok out) :
    out.length = df_ygn.length + df_mdl.length := by
  obtain ⟨yc, mc, wd, h1, h2, h3, h4⟩ := run_etl_ok_elim now df_ygn df_mdl out h
  have l1 := mapE_ok_length _ _ _ h1
  have l2 := mapE_ok_length _ _ _ h2
  have l3 := mapE_ok_length _ _ _ h3
  have l4 := mapE_ok_length _ _ _ h4
  rw [List.length_map] at l1
  rw [List.length_append] at l3
  omega

/-- Witness for C3: the concrete one-row-per-branch run yields 1 + 1
records. -/
theorem claim_C3_witness :
    sampleOut.length =
      ([genYgnRow sampleYgnChoice] : DataFrame).length +
      ([genMdlRow sampleMdlChoice] : DataFrame).length :=
  claim_C3_lossless sampleNow [genYgnRow sampleYgnChoice]
    [genMdlRow sampleMdlChoice] sampleOut (by decide)

/-- Counterexample to C4 as stated: the Yangon date string "25/12/2025"
fails the source's asserted ISO format, yet the run does not fail —
line 60's format-less `pd.to_datetime` silently reads it day-first as
2025-12-25, the run succeeds, and the regenerate handler replaces the
session's `df_master` with the new table (the previous value, `none`,
does not remain). -/
theorem claim_C4_counterexample :
    parseDateISO "25/12/2025" = none ∧
    run_etl_pipeline sampleNow [wrongFormatYgnRow] [] = Except.ok wrongFormatOut ∧
    rowGet "expiry_date" (wrongFormatOut.getD 0 []) =
      some (Value.ts (86400 * daysFromCivil ⟨2025, 12, 25⟩)) ∧
    (regenerate_click sampleNow ⟨false, none⟩ [wrongFormatYgnRow] []).df_master =
      some wrongFormatOut ∧
    ¬ (regenerate_click sampleNow ⟨false, none⟩
        [wrongFormatYgnRow] []).df_master = none := by decide

/-- C4 as amended: whenever a pipeline run fails (as it does when some
record's date string parses under no recognized reading — concretely,
"25/13/2025" aborts any run containing it), no canonical table, partial
or otherwise, is produced, and no new data replaces the existing session
state: the previous `df_master`, if any, remains.  A date string that
merely fails its source's asserted format, while still a date in
another recognized reading, does not abort the run. -/
theorem claim_C4_amended (now : Int) (df_ygn df_mdl : DataFrame) :
    (∀ e, run_etl_pipeline now df_ygn df_mdl = Except.error e →
      (∀ out, ¬ run_etl_pipeline now df_ygn df_mdl = Except.ok out) ∧
      (∀ st : SessionState,
        (regenerate_click now st df_ygn df_mdl).df_master = st.df_master)) ∧
    (∃ e, run_etl_pipeline now [badYgnRow] [] = Except.error e) := by
  constructor
  · intro e he
    constructor
    · intro out hok
      rw [he] at hok
      cases hok
    · intro st
      unfold regenerate_click
      rw [he]
  · have hstage : mapE ygnParseDateRow
        (([badYgnRow] : DataFrame).map (renameRow ygnRenameMap)) =
        Except.error ("unparseable date: " ++ "25/13/2025") := by decide
    refine ⟨"unparseable date: " ++ "25/13/2025", ?_⟩
    unfold run_etl_pipeline
    rw [hstage]

/-- Witness for the amended C4: the run over the genuinely unparseable
row "25/13/2025" fails and leaves an empty session's `df_master`
untouched. -/
theorem claim_C4_amended_witness :
    (regenerate_click sampleNow ⟨false, none⟩ [badYgnRow] []).df_master =
      (⟨false, none⟩ : SessionState).df_master := by
  obtain ⟨e2, he2⟩ := (claim_C4_amended sampleNow [badYgnRow] []).2
  exact ((claim_C4_amended sampleNow [badYgnRow] []).1 e2 he2).2 ⟨false, none⟩

/-- C5: within one pipeline run all derived columns are computed from
the single `now` captured once at line 76 (the `now` argument): for
every output record, `days_until_expiry` equals the floored day
difference between its expiry timestamp and that shared `now`, and
`status` is the pure function `get_status` of that difference, so status
is a deterministic function of (expiry_date, shared now). -/
theorem claim_C5_shared_now_determinism (now : Int) (df_ygn df_mdl out : DataFrame)
    (h : run_etl_pipeline now df_ygn df_mdl = Except.ok out) :
    ∀ r ∈ out, ∃ e, rowGet "expiry_date" r = some (Value.ts e) ∧
      rowGet "days_until_expiry" r = some (Value.int ((e - now) / 86400)) ∧
      rowGet "status" r = some (Value.str (get_status ((e - now) / 86400))) := by
  intro r hr
  obtain ⟨yc, mc, wd, h1, h2, h3, h4⟩ := run_etl_ok_elim now df_ygn df_mdl out h
  obtain ⟨c, hc, hcr⟩ := mapE_ok_mem statusRow wd out h4 r hr
  obtain ⟨m, hm, hmc⟩ := mapE_ok_mem (daysRow now) _ wd h3 c hc
  obtain ⟨e, -, hre, hdays, hstat, -⟩ := derived_row_spec now m c r hmc hcr
  exact ⟨e, hre, hdays, hstat⟩

/-- Witness for C5 at the concrete sample run: the Yangon sample row's
days cell is the floored difference of its expiry timestamp and the
shared sample `now`. -/
theorem claim_C5_witness :
    rowGet "days_until_expiry" (sampleOut.getD 0 []) =
      some (Value.int ((1749081600 - sampleNow) / 86400)) := by
  obtain ⟨e, he, hdays, -⟩ := claim_C5_shared_now_determinism sampleNow
    [genYgnRow sampleYgnChoice] [genMdlRow sampleMdlChoice] sampleOut
    (by decide) (sampleOut.getD 0 []) (by decide)
  have he' : rowGet "expiry_date" (sampleOut.getD 0 []) =
      some (Value.ts 1749081600) := by decide
  have hinj : Value.ts e = Value.ts 1749081600 := Option.some.inj (he.symm.trans he')
  have hee : e = 1749081600 := by injection hinj
  rw [← hee]
  exact hdays

/-- C6: the concatenation step appends the cleaned Variant-B block after
the cleaned Variant-A block with no sorting and no deduplication: the
output length is the sum of the block lengths, the record at output
position `i < |A|` is the derived image of cleaned A-record `i`, and the
record at output position `|A| + j` is the derived image of cleaned
B-record `j` — relative order within each source batch is preserved. -/
theorem claim_C6_concat_order (now : Int)
    (df_ygn df_mdl out ygnClean mdlClean : DataFrame)
    (hy : mapE ygnParseDateRow (df_ygn.map (renameRow ygnRenameMap)) =
      Except.ok ygnClean)
    (hm : mapE mdlCleanRow df_mdl = Except.ok mdlClean)
    (h : run_etl_pipeline now df_ygn df_mdl = Except.ok out) :
    out.length = ygnClean.length + mdlClean.length ∧
    (∀ i, i < ygnClean.length →
      ∃ r', daysRow now (ygnClean.getD i []) = Except.ok r' ∧
        statusRow r' = Except.ok (out.getD i [])) ∧
    (∀ j, j < mdlClean.length →
      ∃ r', daysRow now (mdlClean.getD j []) = Except.ok r' ∧
        statusRow r' = Except.ok (out.getD (ygnClean.length + j) [])) := by
  obtain ⟨yc, mc, wd, h1, h2, h3, h4⟩ := run_etl_ok_elim now df_ygn df_mdl out h
  rw [hy] at h1
  have hyc : yc = ygnClean := (Except.ok.inj h1).symm
  subst hyc
  rw [hm] at h2
  have hmc : mc = mdlClean := (Except.ok.inj h2).symm
  subst hmc
  have l3 := mapE_ok_length _ _ _ h3
  have l4 := mapE_ok_length _ _ _ h4
  rw [List.length_append] at l3
  refine ⟨by omega, ?_, ?_⟩
  · intro i hi
    have hcat : (yc ++ mc).getD i [] = yc.getD i [] :=
      getD_append_left _ _ _ _ hi
    have hd := mapE_ok_getD (daysRow now) [] [] _ wd h3 i
      (by rw [List.length_append]; omega)
    have hs := mapE_ok_getD statusRow [] [] _ out h4 i (by omega)
    rw [hcat] at hd
    exact ⟨wd.getD i [], hd, hs⟩
  · intro j hj
    have hcat : (yc ++ mc).getD (yc.length + j) [] = mc.getD j [] :=
      getD_append_add _ _ _ _
    have hd := mapE_ok_getD (daysRow now) [] [] _ wd h3 (yc.length + j)
      (by rw [List.length_append]; omega)
    have hs := mapE_ok_getD statusRow [] [] _ out h4 (yc.length + j)
      (by omega)
    rw [hcat] at hd
    exact ⟨wd.getD (yc.length + j) [], hd, hs⟩

/-- Witness for C6 at the concrete sample run. -/
theorem claim_C6_witness :
    sampleOut.length = sampleYgnClean.length + sampleMdlClean.length :=
  (claim_C6_concat_order sampleNow [genYgnRow sampleYgnChoice]
    [genMdlRow sampleMdlChoice] sampleOut sampleYgnClean sampleMdlClean
    (by decide) (by decide) (by decide)).1

/-- C7: the pipeline has no side effect on its inputs: running the
statement-by-statement local-environment model of `run_etl_pipeline`
leaves the `df_ygn` and `df_mdl` bindings exactly as they were (same
rows, same fields, same order), and its only product is the `df_master`
binding, which carries the functional pipeline's output. -/
theorem claim_C7_no_input_mutation (now : Int) (env env' : EtlEnv)
    (h : run_etl_env now env = Except.ok env') :
    env'.df_ygn = env.df_ygn ∧ env'.df_mdl = env.df_mdl ∧
    env'.df_master = (run_etl_pipeline now env.df_ygn env.df_mdl).toOption := by
  simp only [run_etl_env] at h
  cases h1 : mapE ygnParseDateRow (env.df_ygn.map (renameRow ygnRenameMap)) with
  | error e =>
    rw [h1] at h
    simp only at h
    cases h
  | ok yc =>
    rw [h1] at h
    simp only at h
    cases h2 : mapE mdlCleanRow env.df_mdl with
    | error e =>
      rw [h2] at h
      simp only at h
      cases h
    | ok mc =>
      rw [h2] at h
      simp only at h
      cases h3 : mapE (daysRow now) (yc ++ mc) with
      | error e =>
        rw [h3] at h
        simp only at h
        cases h
      | ok wd =>
        rw [h3] at h
        simp only at h
        cases h4 : mapE statusRow wd with
        | error e =>
          rw [h4] at h
          simp only at h
          cases h
        | ok final =>
          rw [h4] at h
          simp only at h
          cases h
          refine ⟨rfl, rfl, ?_⟩
          unfold run_etl_pipeline
          rw [h1]
          simp only
          rw [h2]
          simp only
          rw [h3]
          simp only
          rw [h4]
          rfl

/-- Witness for C7 at the concrete sample run: the input bindings are
untouched. -/
theorem claim_C7_witness :
    sampleEnvAfter.df_ygn = sampleEnv.df_ygn ∧
    sampleEnvAfter.df_mdl = sampleEnv.df_mdl := by
  have h := claim_C7_no_input_mutation sampleNow sampleEnv sampleEnvAfter (by decide)
  exact ⟨h.1, h.2.1⟩

/-- Counterexample to C8 as stated: a concrete record produced by the
Yangon generator (from draws inside the generator's ranges) has the
field names `Product_ID`, `Product_Name`, `Batch_No`, `Expiry_Date`,
`Stock_Qty`, `Warehouse_Loc` — not the claimed canonical names
`product_id`, ..., `quantity`, `branch_location` (those only appear
after the pipeline's rename step). -/
theorem claim_C8_counterexample :
    validYgnChoice sampleYgnChoice ∧
    rowKeys (genYgnRow sampleYgnChoice) =
      ["Product_ID", "Product_Name", "Batch_No", "Expiry_Date", "Stock_Qty",
       "Warehouse_Loc"] ∧
    ¬ rowKeys (genYgnRow sampleYgnChoice) =
      ["product_id", "product_name", "batch_no", "expiry_date", "quantity",
       "branch_location"] ∧
    ¬ "product_id" ∈ rowKeys (genYgnRow sampleYgnChoice) ∧
    ¬ "quantity" ∈ rowKeys (genYgnRow sampleYgnChoice) ∧
    ¬ "branch_location" ∈ rowKeys (genYgnRow sampleYgnChoice) := by decide

/-- C8 as amended: every Variant-A raw record has exactly the fields
`Product_ID`, `Product_Name`, `Batch_No`, `Expiry_Date` (an ISO string
`YYYY-MM-DD` rendering a valid civil date), `Stock_Qty` (an integer
`≥ 0`), and `Warehouse_Loc` (the constant string "Yangon_Main"). -/
theorem claim_C8_amended (c : YgnChoice) (hc : validYgnChoice c)
    (hv : validYmd c.nowDate) (hy : 11 ≤ c.nowDate.year) :
    rowKeys (genYgnRow c) =
      ["Product_ID", "Product_Name", "Batch_No", "Expiry_Date", "Stock_Qty",
       "Warehouse_Loc"] ∧
    (∃ q : Int, rowGet "Stock_Qty" (genYgnRow c) = some (Value.int q) ∧ 0 ≤ q) ∧
    rowGet "Warehouse_Loc" (genYgnRow c) = some (Value.str "Yangon_Main") ∧
    (∃ cd : Date, validYmd cd ∧ 0 ≤ cd.year ∧
      rowGet "Expiry_Date" (genYgnRow c) = some (Value.str (formatIsoDate cd)) ∧
      parseDateISO (formatIsoDate cd) = some cd) := by
  obtain ⟨-, hdays, -, -, hq, -⟩ := hc
  have hk : -10 ≤ c.days := by rcases hdays with h | h | h | h <;> omega
  obtain ⟨hval, hy0, hiso, -, -⟩ := gen_date_roundtrip c.days c.nowDate hv hy hk
  refine ⟨rfl, ⟨c.qty, rfl, by omega⟩, rfl, addDaysCivil c.days c.nowDate,
    hval, hy0, rfl, hiso⟩

/-- Witness for the amended C8 at the concrete sample draw. -/
theorem claim_C8_amended_witness :
    rowKeys (genYgnRow sampleYgnChoice) =
      ["Product_ID", "Product_Name", "Batch_No", "Expiry_Date", "Stock_Qty",
       "Warehouse_Loc"] ∧
    rowGet "Warehouse_Loc" (genYgnRow sampleYgnChoice) =
      some (Value.str "Yangon_Main") := by
  have h := claim_C8_amended sampleYgnChoice (by decide) (by decide) (by decide)
  exact ⟨h.1, h.2.2.1⟩

/-- C9: generated expiry strings carry a date only, so the parsed expiry
is midnight while the run's `now` has a time of day; whenever `now` is
not exactly midnight (and each record was generated on the same calendar
day as `now`), a record generated with offset `k` gets
`days_until_expiry = k - 1`: the Yangon record at input position `i` and
the Mandalay record at input position `j` (output position
`ycs.length + j`) both floor down by one day.  In particular a 90-day
Mandalay offset yields 89 (CRITICAL, not HEALTHY) and a -10-day Yangon
offset yields -11. -/
theorem claim_C9_date_only_flooring (now : Int) (ycs : List YgnChoice)
    (mcs : List MdlChoice) (out : DataFrame)
    (h : run_etl_pipeline now (ycs.map genYgnRow) (mcs.map genMdlRow) =
      Except.ok out)
    (hmid : ¬ now % 86400 = 0) :
    (∀ i, i < ycs.length →
      validYmd (ycs.getD i defaultYgnChoice).nowDate →
      11 ≤ (ycs.getD i defaultYgnChoice).nowDate.year →
      -10 ≤ (ycs.getD i defaultYgnChoice).days →
      daysFromCivil (ycs.getD i defaultYgnChoice).nowDate = now / 86400 →
      rowGet "days_until_expiry" (out.getD i []) =
        some (Value.int ((ycs.getD i defaultYgnChoice).days - 1)) ∧
      rowGet "status" (out.getD i []) =
        some (Value.str (get_status ((ycs.getD i defaultYgnChoice).days - 1)))) ∧
    (∀ j, j < mcs.length →
      validYmd (mcs.getD j defaultMdlChoice).nowDate →
      11 ≤ (mcs.getD j defaultMdlChoice).nowDate.year →
      -10 ≤ (mcs.getD j defaultMdlChoice).days →
      daysFromCivil (mcs.getD j defaultMdlChoice).nowDate = now / 86400 →
      rowGet "days_until_expiry" (out.getD (ycs.length + j) []) =
        some (Value.int ((mcs.getD j defaultMdlChoice).days - 1)) ∧
      rowGet "status" (out.getD (ycs.length + j) []) =
        some (Value.str (get_status ((mcs.getD j defaultMdlChoice).days - 1)))) ∧
    get_status (90 - 1) = "CRITICAL" ∧ ¬ get_status (90 - 1) = "HEALTHY" ∧
    (-10 : Int) - 1 = -11 ∧ get_status (-11) = "EXPIRED" := by
  obtain ⟨yc, mc, wd, h1, h2, h3, h4⟩ :=
    run_etl_ok_elim now (ycs.map genYgnRow) (mcs.map genMdlRow) out h
  have ly : yc.length = ycs.length := by
    have := mapE_ok_length _ _ _ h1
    simpa [List.length_map] using this
  have lm : mc.length = mcs.length := by
    have := mapE_ok_length _ _ _ h2
    simpa [List.length_map] using this
  have lw : wd.length = yc.length + mc.length := by
    have := mapE_ok_length _ _ _ h3
    simpa [List.length_append] using this
  have lo : out.length = wd.length := mapE_ok_length _ _ _ h4
  refine ⟨?_, ?_, by decide, by decide, by decide, by decide⟩
  · intro i hi hv hy hk hD
    have hi' : i < (ycs.map genYgnRow).length := by simpa using hi
    have hiyc : i < yc.length := by omega
    have hraw : ((ycs.map genYgnRow).map (renameRow ygnRenameMap)).getD i [] =
        renameRow ygnRenameMap (genYgnRow (ycs.getD i defaultYgnChoice)) := by
      rw [getD_map_lt (renameRow ygnRenameMap) (ycs.map genYgnRow) i [] [] hi',
        getD_map_lt genYgnRow ycs i [] defaultYgnChoice hi]
    have hstep := mapE_ok_getD ygnParseDateRow [] [] _ yc h1 i (by simpa using hi)
    rw [hraw, ygn_clean_gen (ycs.getD i defaultYgnChoice) hv hy hk] at hstep
    have hyci := (Except.ok.inj hstep).symm
    have hmaster : (yc ++ mc).getD i [] = yc.getD i [] :=
      getD_append_left _ _ _ _ hiyc
    have hd := mapE_ok_getD (daysRow now) [] [] _ wd h3 i
      (by rw [List.length_append]; omega)
    rw [hmaster] at hd
    obtain ⟨e, hge, hwd⟩ := daysRow_ok_elim now _ _ hd
    have hgetE : rowGet "expiry_date" (yc.getD i []) =
        some (Value.ts (86400 *
          (daysFromCivil (ycs.getD i defaultYgnChoice).nowDate +
            (ycs.getD i defaultYgnChoice).days))) := by
      rw [hyci]
      rfl
    have hEe : e = 86400 *
        (daysFromCivil (ycs.getD i defaultYgnChoice).nowDate +
          (ycs.getD i defaultYgnChoice).days) := by
      have hj := Option.some.inj (hge.symm.trans hgetE)
      injection hj
    have harith : (e - now) / 86400 = (ycs.getD i defaultYgnChoice).days - 1 := by
      rw [hEe, hD]
      omega
    have hs := mapE_ok_getD statusRow [] [] _ out h4 i (by omega)
    obtain ⟨d, hgd, hout⟩ := statusRow_ok_elim _ _ hs
    rw [hwd, rowGet_setCell_same] at hgd
    have hdd : d = (e - now) / 86400 := by
      have hj := Option.some.inj hgd
      injection hj with hj2
      omega
    rw [hout, hwd]
    constructor
    · rw [rowGet_setCell_other _ _ _ _
        (by decide : ("days_until_expiry" : String) ≠ "status"),
        rowGet_setCell_same, harith]
    · rw [rowGet_setCell_same, hdd, harith]
  · intro j hj hv hy hk hD
    have hj' : j < (mcs.map genMdlRow).length := by simpa using hj
    have hjmc : j < mc.length := by omega
    have hraw : (mcs.map genMdlRow).getD j [] =
        genMdlRow (mcs.getD j defaultMdlChoice) :=
      getD_map_lt genMdlRow mcs j [] defaultMdlChoice hj
    have hstep := mapE_ok_getD mdlCleanRow [] [] _ mc h2 j (by simpa using hj)
    rw [hraw, mdl_clean_gen (mcs.getD j defaultMdlChoice) hv hy hk] at hstep
    have hmcj := (Except.ok.inj hstep).symm
    have hmaster : (yc ++ mc).getD (yc.length + j) [] = mc.getD j [] :=
      getD_append_add _ _ _ _
    have hd := mapE_ok_getD (daysRow now) [] [] _ wd h3 (yc.length + j)
      (by rw [List.length_append]; omega)
    rw [hmaster] at hd
    obtain ⟨e, hge, hwd⟩ := daysRow_ok_elim now _ _ hd
    have hgetE : rowGet "expiry_date" (mc.getD j []) =
        some (Value.ts (86400 *
          (daysFromCivil (mcs.getD j defaultMdlChoice).nowDate +
            (mcs.getD j defaultMdlChoice).days))) := by
      rw [hmcj]
      rfl
    have hEe : e = 86400 *
        (daysFromCivil (mcs.getD j defaultMdlChoice).nowDate +
          (mcs.getD j defaultMdlChoice).days) := by
      have hje := Option.some.inj (hge.symm.trans hgetE)
      injection hje
    have harith : (e - now) / 86400 = (mcs.getD j defaultMdlChoice).days - 1 := by
      rw [hEe, hD]
      omega
    have hs := mapE_ok_getD statusRow [] [] _ out h4 (yc.length + j) (by omega)
    obtain ⟨d, hgd, hout⟩ := statusRow_ok_elim _ _ hs
    rw [hwd, rowGet_setCell_same] at hgd
    have hdd : d = (e - now) / 86400 := by
      have hje := Option.some.inj hgd
      injection hje with hj2
      omega
    have hidx : ycs.length + j = yc.length + j := by omega
    rw [hidx, hout, hwd]
    constructor
    · rw [rowGet_setCell_other _ _ _ _
        (by decide : ("days_until_expiry" : String) ≠ "status"),
        rowGet_setCell_same, harith]
    · rw [rowGet_setCell_same, hdd, harith]

/-- Witness for C9 at the concrete sample run: the -10-day Yangon record
gets -11 (EXPIRED) and the 90-day Mandalay record gets 89 (CRITICAL). -/
theorem claim_C9_witness :
    rowGet "days_until_expiry" (sampleOut.getD 0 []) =
      some (Value.int ((-10) - 1)) ∧
    rowGet "days_until_expiry" (sampleOut.getD (1 + 0) []) =
      some (Value.int (90 - 1)) ∧
    rowGet "status" (sampleOut.getD (1 + 0) []) =
      some (Value.str (get_status (90 - 1))) := by
  have h := claim_C9_date_only_flooring sampleNow [sampleYgnChoice]
    [sampleMdlChoice] sampleOut (by decide) (by decide)
  have hy := h.1 0 (by decide) (by decide) (by decide) (by decide) (by decide)
  have hm := h.2.1 0 (by decide) (by decide) (by decide) (by decide) (by decide)
  exact ⟨hy.1, hm.1, hm.2⟩

/-- C10: over generated data (with the Mandalay draws in the generator's
ranges and generated on the run's calendar day), no Mandalay record is
EXPIRED — its offsets are all at least 10 days — so every EXPIRED output
record carries `branch_location = "Yangon_Main"`. -/
theorem claim_C10_expired_only_yangon (now : Int) (ycs : List YgnChoice)
    (mcs : List MdlChoice) (out : DataFrame)
    (h : run_etl_pipeline now (ycs.map genYgnRow) (mcs.map genMdlRow) =
      Except.ok out)
    (hm : ∀ c ∈ mcs, validMdlChoice c ∧ validYmd c.nowDate ∧
      11 ≤ c.nowDate.year ∧ daysFromCivil c.nowDate = now / 86400) :
    ∀ r ∈ out, rowGet "status" r = some (Value.str "EXPIRED") →
      rowGet "branch_location" r = some (Value.str "Yangon_Main") := by
  intro r hr hexp
  obtain ⟨yc, mc, wd, h1, h2, h3, h4⟩ :=
    run_etl_ok_elim now (ycs.map genYgnRow) (mcs.map genMdlRow) out h
  obtain ⟨c, hc, hcr⟩ := mapE_ok_mem statusRow wd out h4 r hr
  obtain ⟨m, hmm, hmc⟩ := mapE_ok_mem (daysRow now) _ wd h3 c hc
  obtain ⟨e, hgme, -, -, hstat, hbr⟩ := derived_row_spec now m c r hmc hcr
  rcases List.mem_append.mp hmm with hy | hmd
  · -- the record comes from the Yangon block: its branch is constant
    obtain ⟨raw, hraw, hok⟩ := mapE_ok_mem ygnParseDateRow _ yc h1 m hy
    obtain ⟨raw0, hraw0, hre⟩ := List.mem_map.mp hraw
    obtain ⟨c0, hc0, hgen⟩ := List.mem_map.mp hraw0
    obtain ⟨s, cd, -, -, hmval⟩ := ygnParseDateRow_ok_elim raw m hok
    rw [hbr, hmval]
    rw [rowGet_setCell_other _ _ _ _
      (by decide : ("branch_location" : String) ≠ "expiry_date")]
    rw [← hre, ← hgen]
    rfl
  · -- the record comes from the Mandalay block: it cannot be EXPIRED
    exfalso
    obtain ⟨raw, hraw, hok⟩ := mapE_ok_mem mdlCleanRow _ mc h2 m hmd
    obtain ⟨c0, hc0, hgen⟩ := List.mem_map.mp hraw
    obtain ⟨hvc, hvd, hyy, hD⟩ := hm c0 hc0
    have hk : -10 ≤ c0.days := by
      obtain ⟨-, hds, -⟩ := hvc
      rcases hds with h' | h' | h' <;> omega
    rw [← hgen, mdl_clean_gen c0 hvd hyy hk] at hok
    have hmeq := (Except.ok.inj hok).symm
    have hgetE : rowGet "expiry_date" m =
        some (Value.ts (86400 * (daysFromCivil c0.nowDate + c0.days))) := by
      rw [hmeq]
      rfl
    have hEe : e = 86400 * (daysFromCivil c0.nowDate + c0.days) := by
      have hje := Option.some.inj (hgme.symm.trans hgetE)
      injection hje
    have hk10 : 10 ≤ c0.days := by
      obtain ⟨-, hds, -⟩ := hvc
      rcases hds with h' | h' | h' <;> omega
    have hnonneg : 0 ≤ (e - now) / 86400 := by
      rw [hEe, hD]
      omega
    have hse : get_status ((e - now) / 86400) = "EXPIRED" := by
      have hje := Option.some.inj (hstat.symm.trans hexp)
      injection hje
    have := (get_status_eq_expired ((e - now) / 86400)).mp hse
    omega

/-- Witness for C10 at the concrete sample run: the EXPIRED sample
record is the Yangon one. -/
theorem claim_C10_witness :
    rowGet "branch_location" (sampleOut.getD 0 []) =
      some (Value.str "Yangon_Main") :=
  claim_C10_expired_only_yangon sampleNow [sampleYgnChoice] [sampleMdlChoice]
    sampleOut (by decide) (by decide) (sampleOut.getD 0 []) (by decide)
    (by decide)
